import Mathlib

/-!
Verification of the order-lifecycle, quantity/pricing and reporting logic of a
Telegram storefront bot (src/db.py and src/main.py).

Modelling conventions:
* SQLite REAL / Python float values are modelled as exact rationals (`ℚ`);
  decimal parsing, arithmetic and rendering are exact.  Python `round` is
  round-half-to-even, modelled by `roundE`.
* SQLite tables are lists of rows; `INSERT` appends, conditional `UPDATE`
  maps over the rows that satisfy the `WHERE` clause, `SELECT ... fetchone()`
  is `List.find?`.
* Timestamps are ISO-8601 strings as produced by `datetime.utcnow().isoformat()`;
  SQLite `date(x)` on such strings is the first ten characters, and SQLite TEXT
  comparison is character-wise lexicographic comparison.
* `Asia/Tashkent` is a fixed UTC+5 offset (true since 1992, no DST).
* Python truthiness on optional strings/numbers (`x or y`) is modelled
  explicitly (`pyOrStr`, `pyOrPrice`, `truthyNe`).
-/

/-! ### Decimal digits, parsing and rendering primitives -/

def digitVal (c : Char) : ℕ := c.toNat - 48

def isDigitCh (c : Char) : Bool := 48 ≤ c.toNat && c.toNat ≤ 57

def digitChar : ℕ → Char
  | 0 => '0'
  | 1 => '1'
  | 2 => '2'
  | 3 => '3'
  | 4 => '4'
  | 5 => '5'
  | 6 => '6'
  | 7 => '7'
  | 8 => '8'
  | _ => '9'

/-- Value of a big-endian string of decimal digit characters. -/
def digitsToNat (l : List Char) : ℕ := l.foldl (fun a c => 10 * a + digitVal c) 0

/-- Little-endian decimal digits of `n`, with explicit fuel (structural recursion). -/
def natDigitsRev : ℕ → ℕ → List ℕ
  | _, 0 => []
  | 0, _ + 1 => []
  | f + 1, n + 1 => ((n + 1) % 10) :: natDigitsRev f ((n + 1) / 10)

/-- Decimal rendering of a natural number, as Python `str(int)` does. -/
def natChars (n : ℕ) : List Char :=
  if n = 0 then ['0'] else ((natDigitsRev n n).map digitChar).reverse

def natStr (n : ℕ) : String := String.mk (natChars n)

def intChars (z : ℤ) : List Char :=
  if z < 0 then '-' :: natChars z.natAbs else natChars z.natAbs

def intStr (z : ℤ) : String := String.mk (intChars z)

/-- Python `abs` on our rational model. -/
def absQ (q : ℚ) : ℚ := if q < 0 then -q else q

/-- Python `round` to an integer: round half to even. -/
def roundE (q : ℚ) : ℤ :=
  if q - ⌊q⌋ < 1 / 2 then ⌊q⌋
  else if (1 : ℚ) / 2 < q - ⌊q⌋ then ⌊q⌋ + 1
  else if ⌊q⌋ % 2 = 0 then ⌊q⌋ else ⌊q⌋ + 1

/-- Two decimal digits with leading zero, for an argument below 100. -/
def pad2 (a : ℕ) : List Char := [digitChar (a / 10), digitChar (a % 10)]

/-- Python `str.rstrip` with a single-character strip set. -/
def rstripCh (l : List Char) (c : Char) : List Char :=
  (l.reverse.dropWhile (fun x => x = c)).reverse

/-- The `.rstrip("0").rstrip(".")` tail cleanup used by the price formatters. -/
def stripTail (l : List Char) : List Char := rstripCh (rstripCh l '0') '.'

/-- Python `f-string` fixed-two-decimals rendering of a rational. -/
def twoDecChars (q : ℚ) : List Char :=
  let r := roundE (100 * q)
  let core := natChars (r.natAbs / 100) ++ '.' :: pad2 (r.natAbs % 100)
  if r < 0 then '-' :: core else core

/-- The `1e-9` integrality tolerance used by the formatters in main.py. -/
def EPS : ℚ := 1 / 1000000000

/-- Core of `format_price` (main.py): integral values render without decimals,
fractional values with up to two decimals, trailing zeros stripped. -/
def formatPriceChars (q : ℚ) : List Char :=
  if absQ (q - roundE q) < EPS then intChars (roundE q) else stripTail (twoDecChars q)

/-- main.py `format_price`. -/
def format_price : Option ℚ → String
  | none => "⚠️ Kiritilmagan"
  | some q => String.mk (formatPriceChars q)

/-- Insert thousands separators into a reversed digit list (`f"{n:,}"`). -/
def commaRev : List Char → ℕ → List Char
  | [], _ => []
  | c :: t, k =>
    if k % 3 = 0 ∧ k ≠ 0 then ',' :: c :: commaRev t (k + 1) else c :: commaRev t (k + 1)

def commaNatChars (n : ℕ) : List Char := (commaRev (natChars n).reverse 0).reverse

def commaIntChars (z : ℤ) : List Char :=
  if z < 0 then '-' :: commaNatChars z.natAbs else commaNatChars z.natAbs

/-- `f"{q:,.2f}"`: grouped integer part, exactly two decimals. -/
def commaTwoDecChars (q : ℚ) : List Char :=
  let r := roundE (100 * q)
  let core := commaNatChars (r.natAbs / 100) ++ '.' :: pad2 (r.natAbs % 100)
  if r < 0 then '-' :: core else core

/-- main.py `format_money_with_commas`. -/
def format_money_with_commas : Option ℚ → String
  | none => "⚠️ Kiritilmagan"
  | some v =>
    if absQ (v - roundE v) < EPS then String.mk (commaIntChars (roundE v))
    else String.mk (stripTail (commaTwoDecChars v))

/-- main.py `format_tons`: like `format_money_with_commas` but the integral
branch renders without grouping. -/
def format_tons (v : ℚ) : String :=
  if absQ (v - roundE v) < EPS then intStr (roundE v)
  else String.mk (stripTail (commaTwoDecChars v))

/-- ASCII whitespace recognised by Python `str.strip`. -/
def isSpaceCh (c : Char) : Bool :=
  c = ' ' || c = '\t' || c = '\n' || c = '\r' || c = '\x0b' || c = '\x0c'

/-- Python `str.strip()`. -/
def trimChars (l : List Char) : List Char :=
  ((l.dropWhile isSpaceCh).reverse.dropWhile isSpaceCh).reverse

/-- ASCII lowering as done by `str.lower()` on the inputs in play. -/
def lowerChar (c : Char) : Char :=
  if 'A' ≤ c ∧ c ≤ 'Z' then Char.ofNat (c.toNat + 32) else c

/-- `re.fullmatch(r"\d+(?:[.,]\d+)?", cleaned)` plus `float(...)` conversion. -/
def parseTonsChars (l : List Char) : Option ℚ :=
  let ip := l.takeWhile isDigitCh
  match l.dropWhile isDigitCh with
  | [] => if ip.isEmpty then none else some (digitsToNat ip : ℚ)
  | sep :: frac =>
    if ip.isEmpty then none
    else if (sep = '.' ∨ sep = ',') ∧ ¬frac.isEmpty ∧ frac.all isDigitCh then
      some ((digitsToNat ip : ℚ) + (digitsToNat frac : ℚ) / 10 ^ frac.length)
    else none

/-- main.py `parse_quantity_to_tons`. -/
def parse_quantity_to_tons (s : String) : Option ℚ := parseTonsChars (trimChars s.toList)

/-- `re.search(r"([0-9]+(?:[.,][0-9]+)?)", cleaned)`: leftmost, greedy. -/
def firstNumberChars : List Char → Option ℚ
  | [] => none
  | c :: rest =>
    if isDigitCh c then
      let ip := (c :: rest).takeWhile isDigitCh
      let after := (c :: rest).dropWhile isDigitCh
      match after with
      | sep :: d :: _ =>
        if (sep = '.' ∨ sep = ',') ∧ isDigitCh d then
          let fp := (after.drop 1).takeWhile isDigitCh
          some ((digitsToNat ip : ℚ) + (digitsToNat fp : ℚ) / 10 ^ fp.length)
        else some (digitsToNat ip : ℚ)
      | _ => some (digitsToNat ip : ℚ)
    else firstNumberChars rest

def startsWithChars : List Char → List Char → Bool
  | [], _ => true
  | x :: xs, hay =>
    match hay with
    | [] => false
    | y :: ys => x = y && startsWithChars xs ys

/-- Python `needle in hay` substring containment. -/
def hasSubChars (needle : List Char) : List Char → Bool
  | [] => needle.isEmpty
  | c :: t => startsWithChars needle (c :: t) || hasSubChars needle t

/-- main.py `parse_quantity_to_kg`: first number in the cleaned text, scaled by
1000 when a "tonna"/"t" unit marker occurs anywhere in the text. -/
def parse_quantity_to_kg (s : String) : Option ℚ :=
  let cleaned := (trimChars s.toList).map lowerChar
  match firstNumberChars cleaned with
  | none => none
  | some n =>
    if hasSubChars "tonna".toList cleaned || hasSubChars ['t'] cleaned then some (n * 1000)
    else some n

/-- main.py `format_deal_price`. -/
def format_deal_price (quantity : String) (pricePerKg : Option ℚ) : String :=
  match pricePerKg with
  | none => "⚠️ Hisoblab bo\x27lmadi"
  | some p =>
    match parse_quantity_to_kg quantity with
    | none => "⚠️ Hisoblab bo\x27lmadi"
    | some kg => format_money_with_commas (some (kg * p)) ++ " сум"

def BTN_CANCEL : String := "❌ Bekor qilish"

/-- main.py `is_cancel_message` on the message text. -/
def is_cancel_message (text : String) : Bool :=
  String.mk (trimChars text.toList) = BTN_CANCEL

/-! ### Python truthiness helpers -/

/-- Python `a or b` on an optional string (`None` and `""` are falsy). -/
def pyOrStr (a : Option String) (b : String) : String :=
  match a with
  | none => b
  | some s => if s.isEmpty then b else s

/-- Python `a or b` on an optional numeric column (`None` and `0` are falsy). -/
def pyOrPrice (a : Option ℚ) (b : ℚ) : ℚ :=
  match a with
  | none => b
  | some x => if x = 0 then b else x

/-- Python `closed_by and closed_by != admin_id` (0 and `None` are falsy). -/
def truthyNe (closedBy : Option Int) (adminId : Int) : Bool :=
  match closedBy with
  | none => false
  | some v => ¬v = 0 ∧ ¬v = adminId

/-! ### Data model (SQLite schema of db.py) -/

structure UserRow where
  id : Int
  tgId : Int
  firstName : Option String
  lastName : Option String
  phone : Option String
  createdAt : String
  lastActive : String
  activityCount : Int
  isBlocked : Bool
deriving DecidableEq, Repr

structure ProductRow where
  id : Nat
  name : String
  pricePerKg : ℚ
  description : Option String
  isDeleted : Bool
deriving DecidableEq, Repr

structure OrderRow where
  id : Nat
  userId : Int
  productId : Nat
  quantity : String
  address : String
  latitude : Option ℚ
  longitude : Option ℚ
  createdAt : String
  status : String
  orderPricePerKg : Option ℚ
  closedAt : Option String
  closedBy : Option Int
  canceledByRole : Option String
deriving DecidableEq, Repr

structure Store where
  users : List UserRow
  products : List ProductRow
  orders : List OrderRow
deriving DecidableEq, Repr

/-- `SELECT ... FROM orders WHERE id = ? ... fetchone()`. -/
def lookupOrder (orders : List OrderRow) (orderId : Nat) : Option OrderRow :=
  orders.find? (fun o => decide (o.id = orderId))

/-- `AUTOINCREMENT` id for a fresh order row. -/
def nextOrderId (orders : List OrderRow) : Nat :=
  (orders.foldl (fun m o => max m o.id) 0) + 1

/-! ### db.py operations -/

/-- db.py `update_product_price`. -/
def update_product_price (store : Store) (productId : Nat) (pricePerKg : ℚ) : Store :=
  { store with
    products := store.products.map (fun p =>
      if p.id = productId then { p with pricePerKg := pricePerKg } else p) }

/-- db.py `get_product` (non-deleted products only). -/
def get_product (store : Store) (productId : Nat) : Option ProductRow :=
  store.products.find? (fun p => decide (p.id = productId) && !p.isDeleted)

/-- db.py `add_order`: the user-flow insert, `status = 'open'`. -/
def add_order (orders : List OrderRow) (userId : Int) (productId : Nat)
    (quantity address : String) (orderPricePerKg : ℚ)
    (latitude longitude : Option ℚ) (now : String) : Nat × List OrderRow :=
  let oid := nextOrderId orders
  (oid,
    orders ++ [{ id := oid, userId := userId, productId := productId,
                 quantity := quantity, address := address,
                 latitude := latitude, longitude := longitude,
                 createdAt := now, status := "open",
                 orderPricePerKg := some orderPricePerKg,
                 closedAt := none, closedBy := none, canceledByRole := none }])

/-- db.py `add_admin_order`: the admin-flow insert, `status = 'closed'` with the
closing timestamp and closing admin recorded at creation. -/
def add_admin_order (orders : List OrderRow) (userId : Int) (productId : Nat)
    (quantity address : String) (orderPricePerKg : ℚ)
    (adminId : Int) (now : String) : Nat × List OrderRow :=
  let oid := nextOrderId orders
  (oid,
    orders ++ [{ id := oid, userId := userId, productId := productId,
                 quantity := quantity, address := address,
                 latitude := none, longitude := none,
                 createdAt := now, status := "closed",
                 orderPricePerKg := some orderPricePerKg,
                 closedAt := some now, closedBy := some adminId,
                 canceledByRole := none }])

structure UpdateResult where
  ok : Bool
  status : Option String
  closedBy : Option Int
  canceledByRole : Option String
deriving DecidableEq, Repr

/-- db.py `update_order_status`: SELECT the row, refuse when missing or not
`open`, otherwise apply the conditional UPDATE guarded by `status = 'open'`. -/
def update_order_status (orders : List OrderRow) (orderId : Nat)
    (newStatus : String) (adminId : Int) (now : String) :
    UpdateResult × List OrderRow :=
  match lookupOrder orders orderId with
  | none => (⟨false, none, none, none⟩, orders)
  | some row =>
    if row.status ≠ "open" then
      (⟨false, some row.status, row.closedBy, row.canceledByRole⟩, orders)
    else
      let role : Option String := if newStatus = "canceled" then some "admin" else none
      (⟨true, some newStatus, some adminId, role⟩,
        orders.map (fun o =>
          if o.id = orderId ∧ o.status = "open" then
            { o with status := newStatus, closedAt := some now,
                     closedBy := some adminId, canceledByRole := role }
          else o))

structure CancelResult where
  ok : Bool
  status : Option String
  canceledByRole : Option String
deriving DecidableEq, Repr

/-- db.py `cancel_order_by_user`: restricted to the owning user, only while
`open`; tags the cancellation as user-initiated and clears `closed_by`. -/
def cancel_order_by_user (orders : List OrderRow) (orderId : Nat) (userId : Int)
    (now : String) : CancelResult × List OrderRow :=
  match orders.find? (fun o => decide (o.id = orderId) && decide (o.userId = userId)) with
  | none => (⟨false, none, none⟩, orders)
  | some row =>
    if row.status ≠ "open" then
      (⟨false, some row.status, row.canceledByRole⟩, orders)
    else
      (⟨true, some "canceled", some "user"⟩,
        orders.map (fun o =>
          if o.id = orderId ∧ o.userId = userId ∧ o.status = "open" then
            { o with status := "canceled", closedAt := some now,
                     closedBy := none, canceledByRole := some "user" }
          else o))

/-- Modelled from the spec: `db.delete_order` is called by the admin delete flow
(main.py `confirm_order_delete`) but is absent from src/db.py.  The spec says
the hard delete "removes the row entirely"; following the rowcount pattern of
`delete_product`, it reports whether a row was removed. -/
def delete_order (orders : List OrderRow) (orderId : Nat) : Bool × List OrderRow :=
  (orders.any (fun o => decide (o.id = orderId)),
   orders.filter (fun o => !decide (o.id = orderId)))

/-! ### main.py presentation layer -/

/-- `html.escape` with default quoting. -/
def escapeChar (c : Char) : List Char :=
  if c = '&' then "&amp;".toList
  else if c = '<' then "&lt;".toList
  else if c = '>' then "&gt;".toList
  else if c = '"' then "&quot;".toList
  else if c = '\x27' then "&#x27;".toList
  else [c]

def escape (s : String) : String := String.mk (s.toList.map escapeChar).flatten

structure DateTimeParts where
  year : ℕ
  month : ℕ
  day : ℕ
  hour : ℕ
  minute : ℕ
deriving DecidableEq, Repr

def isLeapYear (y : ℕ) : Bool := (y % 4 = 0 ∧ ¬y % 100 = 0) ∨ y % 400 = 0

def daysInMonth (y m : ℕ) : ℕ :=
  if m = 2 then (if isLeapYear y then 29 else 28)
  else if m = 4 ∨ m = 6 ∨ m = 9 ∨ m = 11 then 30
  else 31

/-- Seconds with optional fractional part, as accepted after `HH:MM` by
`datetime.fromisoformat` on the naive timestamps this program stores. -/
def validIsoTail : List Char → Bool
  | [] => true
  | ':' :: s1 :: s2 :: rest =>
    isDigitCh s1 && isDigitCh s2 && 10 * digitVal s1 + digitVal s2 < 60 &&
      (match rest with
       | [] => true
       | '.' :: frac => !frac.isEmpty && frac.all isDigitCh
       | _ => false)
  | _ => false

/-- `datetime.fromisoformat` on the naive `YYYY-MM-DD[T HH:MM[:SS[.ffffff]]]`
strings this program writes (timezone-suffixed forms never occur here). -/
def parseIsoChars (l : List Char) : Option DateTimeParts :=
  match l with
  | y1 :: y2 :: y3 :: y4 :: '-' :: m1 :: m2 :: '-' :: d1 :: d2 :: rest =>
    if ([y1, y2, y3, y4, m1, m2, d1, d2].all isDigitCh) then
      let y := digitsToNat [y1, y2, y3, y4]
      let m := digitsToNat [m1, m2]
      let d := digitsToNat [d1, d2]
      if 1 ≤ m ∧ m ≤ 12 ∧ 1 ≤ d ∧ d ≤ daysInMonth y m then
        match rest with
        | [] => some ⟨y, m, d, 0, 0⟩
        | sep :: h1 :: h2 :: ':' :: mi1 :: mi2 :: rest2 =>
          if (sep = 'T' ∨ sep = ' ') ∧ ([h1, h2, mi1, mi2].all isDigitCh)
              ∧ 10 * digitVal h1 + digitVal h2 < 24
              ∧ 10 * digitVal mi1 + digitVal mi2 < 60
              ∧ validIsoTail rest2 then
            some ⟨y, m, d, 10 * digitVal h1 + digitVal h2, 10 * digitVal mi1 + digitVal mi2⟩
          else none
        | _ => none
      else none
    else none
  | _ => none

/-- Shift a naive UTC timestamp to Asia/Tashkent (fixed UTC+5). -/
def shiftToTashkent (dt : DateTimeParts) : DateTimeParts :=
  let h := dt.hour + 5
  if h < 24 then { dt with hour := h }
  else
    let d := dt.day + 1
    if d ≤ daysInMonth dt.year dt.month then { dt with hour := h - 24, day := d }
    else if dt.month < 12 then { dt with hour := h - 24, day := 1, month := dt.month + 1 }
    else { year := dt.year + 1, month := 1, day := 1, hour := h - 24, minute := dt.minute }

def pad4 (n : ℕ) : List Char :=
  [digitChar (n / 1000 % 10), digitChar (n / 100 % 10), digitChar (n / 10 % 10), digitChar (n % 10)]

def renderDateTime (dt : DateTimeParts) : String :=
  String.mk (pad4 dt.year ++ '-' :: pad2 dt.month ++ '-' :: pad2 dt.day
    ++ ' ' :: pad2 dt.hour ++ ':' :: pad2 dt.minute)

/-- main.py `format_order_datetime`: parse, treat as UTC, render in Tashkent
local time; on a parse failure return the raw value. -/
def format_order_datetime (value : String) : String :=
  match parseIsoChars value.toList with
  | none => value
  | some dt => renderDateTime (shiftToTashkent dt)

/-- main.py `format_order_person`. -/
def format_order_person (firstName lastName : Option String) : String :=
  let parts := [firstName, lastName].filterMap (fun p =>
    match p with
    | none => none
    | some s => if s.isEmpty then none else some s)
  if parts.isEmpty then "👤 Noma\x27lum" else String.intercalate " " parts

/-- main.py `format_user_contact`. -/
def format_user_contact (firstName lastName phone : Option String) : String :=
  let parts := [firstName, lastName].filterMap (fun p =>
    match p with
    | none => none
    | some s => if s.isEmpty then none else some s)
  let fullName := if parts.isEmpty then "Noma\x27lum foydalanuvchi" else String.intercalate " " parts
  fullName ++ " (" ++ pyOrStr phone "📞 Telefon yo\x27q" ++ ")"

/-- Rendering of a rational coordinate; Python renders the float shortest-repr,
which the exact model abstracts. -/
def ratStr (q : ℚ) : String :=
  if q.den = 1 then intStr q.num else intStr q.num ++ "/" ++ natStr q.den

/-- main.py `format_location_link`. -/
def format_location_link (latitude longitude : Option ℚ) : Option String :=
  match latitude, longitude with
  | some la, some lo => some ("https://www.google.com/maps?q=" ++ ratStr la ++ "," ++ ratStr lo)
  | _, _ => none

/-- The joined row shape produced by db.py `get_order_with_details` /
`list_orders_with_details` (orders JOIN users JOIN products). -/
structure OrderDetails where
  id : Nat
  quantity : String
  address : String
  latitude : Option ℚ
  longitude : Option ℚ
  createdAt : String
  status : String
  orderPricePerKg : Option ℚ
  closedBy : Option Int
  canceledByRole : Option String
  firstName : Option String
  lastName : Option String
  phone : Option String
  productName : String
  productPricePerKg : ℚ
deriving DecidableEq, Repr

/-- db.py `get_order_with_details` (INNER JOIN users and products). -/
def get_order_with_details (store : Store) (orderId : Nat) : Option OrderDetails :=
  match lookupOrder store.orders orderId with
  | none => none
  | some o =>
    match store.users.find? (fun u => decide (u.id = o.userId)),
          store.products.find? (fun p => decide (p.id = o.productId)) with
    | some u, some p =>
      some { id := o.id, quantity := o.quantity, address := o.address,
             latitude := o.latitude, longitude := o.longitude,
             createdAt := o.createdAt, status := o.status,
             orderPricePerKg := o.orderPricePerKg, closedBy := o.closedBy,
             canceledByRole := o.canceledByRole,
             firstName := u.firstName, lastName := u.lastName, phone := u.phone,
             productName := p.name, productPricePerKg := p.pricePerKg }
    | _, _ => none

/-- main.py `format_order_message`. -/
def format_order_message (order : OrderDetails)
    (includeId : Bool := true) (includeAddress : Bool := true) : String :=
  let person := escape (format_order_person order.firstName order.lastName)
  let createdAt := escape (format_order_datetime order.createdAt)
  let pricePerKg := pyOrPrice order.orderPricePerKg order.productPricePerKg
  let idLines := if includeId then ["🆔 ID: " ++ escape (natStr order.id)] else []
  let baseLines := [
    "👤 Ism: " ++ person,
    "📦 Mahsulot: " ++ escape order.productName,
    "⚖️ Miqdor: " ++ escape order.quantity,
    "💰 Narx (1 kg, ariza vaqti): " ++ escape (format_price (some pricePerKg)) ++ " сум",
    "💵 Jami: " ++ escape (format_deal_price order.quantity (some pricePerKg)),
    "📞 Telefon: " ++ escape (pyOrStr order.phone "Kiritilmagan")]
  let addressLines :=
    if includeAddress then
      ["📍 Manzil: " ++ escape order.address] ++
      (match format_location_link order.latitude order.longitude with
       | some link => ["🗺 Lokatsiya: <a href=\"" ++ escape link ++ "\">Manzilga utish</a>"]
       | none => [])
    else []
  String.intercalate "\n" (idLines ++ baseLines ++ addressLines ++ ["📅 Sana: " ++ createdAt])

/-- main.py `format_status_label`. -/
def format_status_label (status : String) (canceledByRole : Option String) : String :=
  if status = "open" then "🟢 Ochiq"
  else if status = "closed" then "✅ Qabul qilingan va yopilgan"
  else if status = "canceled" ∧ canceledByRole = some "user" then "❌ Bekor qilish va yopish"
  else if status = "canceled" ∧ canceledByRole = some "admin" then "⚠️ Admin tomonidan bekor qilingan"
  else if status = "canceled" then "❌ Bekor qilingan"
  else status

/-- main.py `format_admin_order_details`. -/
def format_admin_order_details (order : OrderDetails) : String :=
  format_order_message order true true ++ "\n" ++
    "📌 Holati: " ++ escape (format_status_label order.status order.canceledByRole)

/-- main.py `format_user_order_message`. -/
def format_user_order_message (order : OrderDetails) : String :=
  let createdAt := escape (format_order_datetime order.createdAt)
  let pricePerKg := pyOrPrice order.orderPricePerKg order.productPricePerKg
  let statusLabel := format_status_label order.status order.canceledByRole
  String.intercalate "\n" [
    "🆔 ID: " ++ escape (natStr order.id),
    "📦 Mahsulot: " ++ escape order.productName,
    "⚖️ Miqdor: " ++ escape order.quantity,
    "💰 Narx (1 kg, ariza vaqti): " ++ escape (format_price (some pricePerKg)) ++ " сум",
    "💵 Jami: " ++ escape (format_deal_price order.quantity (some pricePerKg)),
    "📍 Manzil: " ++ escape order.address,
    "📌 Holati: " ++ escape statusLabel,
    "📅 Sana: " ++ createdAt]

/-! ### main.py order-status handlers -/

/-- main.py `close_order_status` (`orders:close:<id>` callback): the attempted
transition plus the user-facing acknowledgement text. -/
def close_order_status (orders : List OrderRow) (orderId : Nat) (adminId : Int)
    (now : String) : String × List OrderRow :=
  let r := update_order_status orders orderId "closed" adminId now
  if r.1.ok then ("✅ Zayavka qabul qilindi va yopildi", r.2)
  else if r.1.status = some "canceled" then
    if r.1.canceledByRole = some "user" then ("❌ Mijoz buyurtmani bekor qilgan.", r.2)
    else ("❌ Status allaqachon bekor qilingan.", r.2)
  else if truthyNe r.1.closedBy adminId then
    ("⚠️ Boshqa admin allaqachon statusni yopgan.", r.2)
  else ("✅ Status allaqachon yopilgan.", r.2)

/-- main.py `cancel_order_status` (`orders:cancel_confirm:<id>` callback). -/
def cancel_order_status (orders : List OrderRow) (orderId : Nat) (adminId : Int)
    (now : String) : String × List OrderRow :=
  let r := update_order_status orders orderId "canceled" adminId now
  if r.1.ok then ("❌ Zayavka bekor qilindi", r.2)
  else if r.1.status = some "closed" then ("✅ Status allaqachon yopilgan.", r.2)
  else if r.1.status = some "canceled" ∧ r.1.canceledByRole = some "user" then
    ("❌ Mijoz buyurtmani bekor qilgan.", r.2)
  else if truthyNe r.1.closedBy adminId then
    ("⚠️ Boshqa admin allaqachon bekor qilgan.", r.2)
  else ("❌ Status allaqachon bekor qilingan.", r.2)

/-- The failure acknowledgement `close_order_status` actually produces, as a
function of the looked-up row: terminal rows get the specific reason
(customer-canceled / admin-canceled / closed by another admin / closed), and a
missing row gets the same generic already-closed text as a self-closed one. -/
def closeFailureReason (row : Option OrderRow) (adminId : Int) : String :=
  match row with
  | none => "✅ Status allaqachon yopilgan."
  | some r =>
    if r.status = "canceled" then
      if r.canceledByRole = some "user" then "❌ Mijoz buyurtmani bekor qilgan."
      else "❌ Status allaqachon bekor qilingan."
    else if truthyNe r.closedBy adminId then "⚠️ Boshqa admin allaqachon statusni yopgan."
    else "✅ Status allaqachon yopilgan."

/-- The failure acknowledgement `cancel_order_status` actually produces; a
missing row gets the generic already-canceled text. -/
def cancelFailureReason (row : Option OrderRow) (adminId : Int) : String :=
  match row with
  | none => "❌ Status allaqachon bekor qilingan."
  | some r =>
    if r.status = "closed" then "✅ Status allaqachon yopilgan."
    else if r.status = "canceled" ∧ r.canceledByRole = some "user" then
      "❌ Mijoz buyurtmani bekor qilgan."
    else if truthyNe r.closedBy adminId then "⚠️ Boshqa admin allaqachon bekor qilgan."
    else "❌ Status allaqachon bekor qilingan."

/-! ### main.py order-quantity step and delete flow -/

inductive QuantityReply
  | canceledFlow
  | invalidQuantity
  | belowMinimum
  | accepted (normalized : String)
deriving DecidableEq, Repr

/-- main.py `order_quantity` (state `OrderStates.quantity`): validate the free
text, enforce the 2-tonne minimum, and normalize to the canonical
`format_price(qty) ++ " tonna"` string stashed as the order quantity. -/
def order_quantity (text : String) : QuantityReply :=
  if is_cancel_message text then .canceledFlow
  else
    match parse_quantity_to_tons text with
    | none => .invalidQuantity
    | some q => if q < 2 then .belowMinimum else .accepted (format_price (some q) ++ " tonna")

/-- First run of decimal digits in the text, `re.search(r"\d+", ...)`. -/
def firstNatChars : List Char → Option ℕ
  | [] => none
  | c :: rest =>
    if isDigitCh c then some (digitsToNat ((c :: rest).takeWhile isDigitCh))
    else firstNatChars rest

inductive DeleteStep
  | askId
  | confirmStep (orderId : Nat)
  | idle
deriving DecidableEq, Repr

inductive DeleteReply
  | flowCanceled
  | badId
  | orderNotFound
  | confirmPrompt (text : String)
deriving DecidableEq, Repr

/-- main.py `handle_order_delete_id` (state `OrderDeleteStates.order_id`): show
the order and ask for confirmation; the database is only read. -/
def handle_order_delete_id (store : Store) (text : String) :
    DeleteReply × DeleteStep × Store :=
  if is_cancel_message text then (.flowCanceled, .idle, store)
  else
    match firstNatChars text.toList with
    | none => (.badId, .askId, store)
    | some oid =>
      match get_order_with_details store oid with
      | none => (.orderNotFound, .askId, store)
      | some order =>
        (.confirmPrompt ("❗ Buyurtmani o\x27chirmoqchimisiz? Bu amal qaytarilmaydi.\n\n"
            ++ format_admin_order_details order),
         .confirmStep oid, store)

inductive ConfirmDeleteReply
  | missingScratch
  | deletedOk (orderId : Nat)
  | deleteNotFound
  | keptRow
deriving DecidableEq, Repr

/-- main.py `confirm_order_delete` (`orders:delete_confirm` callback): run the
hard delete for the stashed order id (Python truthiness: a missing or zero
scratch id aborts). -/
def confirm_order_delete (store : Store) (scratch : Option Nat) :
    ConfirmDeleteReply × Store :=
  match scratch with
  | none => (.missingScratch, store)
  | some oid =>
    if oid = 0 then (.missingScratch, store)
    else
      let r := delete_order store.orders oid
      if r.1 then (.deletedOk oid, { store with orders := r.2 })
      else (.deleteNotFound, { store with orders := r.2 })

/-- main.py `cancel_order_delete` (`orders:delete_keep` callback). -/
def cancel_order_delete (store : Store) : ConfirmDeleteReply × Store :=
  (.keptRow, store)

/-! ### Reporting (db.py `list_orders_for_report`, main.py `calculate_report_stats`) -/

/-- SQLite `date(x)` on the ISO timestamps this program stores: the date part is
the first ten characters. -/
def dateKey (s : String) : List Char := s.toList.take 10

/-- SQLite TEXT comparison (`<=` on strings), character-wise lexicographic. -/
def strLeChars : List Char → List Char → Bool
  | [], _ => true
  | x :: xs, ys =>
    match ys with
    | [] => false
    | y :: yt =>
      if x.toNat < y.toNat then true
      else if y.toNat < x.toNat then false
      else strLeChars xs yt

/-- The column set of db.py `list_orders_for_report`. -/
structure ReportRow where
  id : Nat
  quantity : String
  createdAt : String
  orderPricePerKg : Option ℚ
  userId : Int
  firstName : Option String
  lastName : Option String
  phone : Option String
  productPricePerKg : ℚ
deriving DecidableEq, Repr

def mkReportRow (o : OrderRow) (u : UserRow) (p : ProductRow) : ReportRow :=
  { id := o.id, quantity := o.quantity, createdAt := o.createdAt,
    orderPricePerKg := o.orderPricePerKg, userId := u.id,
    firstName := u.firstName, lastName := u.lastName, phone := u.phone,
    productPricePerKg := p.pricePerKg }

/-- The WHERE clause of `list_orders_for_report`: closed orders whose effective
date (`COALESCE(closed_at, created_at)`) lies in the inclusive range. -/
def reportFilterHit (o : OrderRow) (startAt endAt : String) : Bool :=
  o.status = "closed"
    && strLeChars (dateKey startAt) (dateKey (o.closedAt.getD o.createdAt))
    && strLeChars (dateKey (o.closedAt.getD o.createdAt)) (dateKey endAt)

/-- Stable insertion for `ORDER BY orders.created_at ASC`. -/
def insertByCreated (x : ReportRow) : List ReportRow → List ReportRow
  | [] => [x]
  | y :: t =>
    if strLeChars x.createdAt.toList y.createdAt.toList then x :: y :: t
    else y :: insertByCreated x t

def sortByCreated : List ReportRow → List ReportRow
  | [] => []
  | x :: t => insertByCreated x (sortByCreated t)

/-- db.py `list_orders_for_report`: JOIN users and products, filter closed
orders by effective date in the inclusive `[start, end]` range, order by
creation timestamp. -/
def list_orders_for_report (store : Store) (startAt endAt : String) : List ReportRow :=
  sortByCreated (store.orders.filterMap (fun o =>
    match store.users.find? (fun u => decide (u.id = o.userId)),
          store.products.find? (fun p => decide (p.id = o.productId)) with
    | some u, some p =>
      if reportFilterHit o startAt endAt then some (mkReportRow o u p) else none
    | _, _ => none))

/-- The row shape `calculate_report_stats` reads (it additionally dereferences
`product_name`, which `list_orders_for_report` does not select). -/
structure StatsRow where
  userId : Int
  productName : String
  firstName : Option String
  lastName : Option String
  phone : Option String
  quantity : String
  orderPricePerKg : Option ℚ
  productPricePerKg : ℚ
deriving DecidableEq, Repr

structure ReportEntry where
  userId : Int
  product : String
  name : String
  tons : ℚ
  amount : ℚ
deriving DecidableEq, Repr

/-- `per_client_product.setdefault(key, ...)` plus in-place accumulation. -/
def addEntry (entries : List ReportEntry) (uid : Int) (product contact : String)
    (tons amount : ℚ) : List ReportEntry :=
  if entries.any (fun e => decide (e.userId = uid) && decide (e.product = product)) then
    entries.map (fun e =>
      if e.userId = uid ∧ e.product = product then
        { e with tons := e.tons + tons, amount := e.amount + amount }
      else e)
  else
    entries ++ [{ userId := uid, product := product, name := contact,
                  tons := tons, amount := amount }]

/-- Stable insertion for `sorted(..., key=amount, reverse=True)`. -/
def insertByAmountDesc (x : ReportEntry) : List ReportEntry → List ReportEntry
  | [] => [x]
  | y :: t => if x.amount < y.amount then y :: insertByAmountDesc x t else x :: y :: t

def sortByAmountDesc : List ReportEntry → List ReportEntry
  | [] => []
  | x :: t => insertByAmountDesc x (sortByAmountDesc t)

/-- main.py `calculate_report_stats`: skip rows whose quantity does not parse
(the joined product price column is NOT NULL, so only the quantity check can
skip), accumulate totals and per-(user, product) entries, sort by amount
descending. -/
def calculate_report_stats (rows : List StatsRow) : ℚ × ℚ × List ReportEntry :=
  let res := rows.foldl (fun (acc : ℚ × ℚ × List ReportEntry) row =>
    match parse_quantity_to_kg row.quantity with
    | none => acc
    | some qtyKg =>
      let price := pyOrPrice row.orderPricePerKg row.productPricePerKg
      let amount := qtyKg * price
      let tons := qtyKg / 1000
      (acc.1 + amount, acc.2.1 + tons,
        addEntry acc.2.2 row.userId row.productName
          (format_user_contact row.firstName row.lastName row.phone) tons amount))
    (0, 0, [])
  (res.1, res.2.1, sortByAmountDesc res.2.2)

/-! ### Helper lemmas about the status-transition primitives -/

theorem lookupOrder_some_of_exists (orders : List OrderRow) (orderId : Nat)
    (hex : ∃ r ∈ orders, r.id = orderId) :
    ∃ r0, lookupOrder orders orderId = some r0 ∧ r0 ∈ orders ∧ r0.id = orderId := by
  obtain ⟨r, hr, hid⟩ := hex
  have hsome : (orders.find? (fun o => decide (o.id = orderId))).isSome := by
    rw [List.find?_isSome]
    exact ⟨r, hr, by simp [hid]⟩
  obtain ⟨r0, hr0⟩ := Option.isSome_iff_exists.mp hsome
  refine ⟨r0, hr0, List.mem_of_find?_eq_some hr0, ?_⟩
  have := List.find?_some hr0
  simpa using this

theorem update_order_status_missing (orders : List OrderRow) (orderId : Nat)
    (newStatus : String) (adminId : Int) (now : String)
    (h : lookupOrder orders orderId = none) :
    update_order_status orders orderId newStatus adminId now =
      (⟨false, none, none, none⟩, orders) := by
  simp only [update_order_status, h]

theorem update_order_status_terminal (orders : List OrderRow) (orderId : Nat)
    (newStatus : String) (adminId : Int) (now : String) (r0 : OrderRow)
    (hr0 : lookupOrder orders orderId = some r0) (hst : r0.status ≠ "open") :
    update_order_status orders orderId newStatus adminId now =
      (⟨false, some r0.status, r0.closedBy, r0.canceledByRole⟩, orders) := by
  simp only [update_order_status, hr0]
  rw [if_pos hst]

theorem update_order_status_open (orders : List OrderRow) (orderId : Nat)
    (newStatus : String) (adminId : Int) (now : String) (r0 : OrderRow)
    (hr0 : lookupOrder orders orderId = some r0) (hst : r0.status = "open") :
    update_order_status orders orderId newStatus adminId now =
      (⟨true, some newStatus, some adminId,
          if newStatus = "canceled" then some "admin" else none⟩,
        orders.map (fun o =>
          if o.id = orderId ∧ o.status = "open" then
            { o with status := newStatus, closedAt := some now,
                     closedBy := some adminId,
                     canceledByRole := if newStatus = "canceled" then some "admin" else none }
          else o)) := by
  simp only [update_order_status, hr0]
  rw [if_neg (by simp [hst])]

theorem lookupOrder_map_id_preserving (g : OrderRow → OrderRow)
    (hg : ∀ o, (g o).id = o.id) (l : List OrderRow) (orderId : Nat) :
    lookupOrder (l.map g) orderId = (lookupOrder l orderId).map g := by
  unfold lookupOrder
  rw [List.find?_map]
  have hpred : ((fun o => decide (o.id = orderId)) ∘ g) = (fun o => decide (o.id = orderId)) := by
    funext o
    simp [Function.comp, hg]
  rw [hpred]

/-! ### C1 — terminal orders reject every further transition -/

/-- C1: for every order whose status is not `open`, every further transition
attempt — `update_order_status` with `closed` or `canceled`, and
`cancel_order_by_user` — returns failure and leaves the orders table (hence the
order's `status`, `closed_at`, `closed_by`, `canceled_by_role`) unchanged. -/
theorem terminal_orders_reject_all_transitions
    (orders : List OrderRow) (orderId : Nat) (now now2 : String)
    (hex : ∃ r ∈ orders, r.id = orderId)
    (hterm : ∀ r ∈ orders, r.id = orderId → r.status ≠ "open") :
    ∀ s ∈ (["closed", "canceled"] : List String), ∀ adminId userId : Int,
      (update_order_status orders orderId s adminId now).1.ok = false ∧
      (update_order_status orders orderId s adminId now).2 = orders ∧
      (cancel_order_by_user orders orderId userId now2).1.ok = false ∧
      (cancel_order_by_user orders orderId userId now2).2 = orders := by
  intro s _ adminId userId
  obtain ⟨r0, hr0, hmem0, hid0⟩ := lookupOrder_some_of_exists orders orderId hex
  have hst0 : r0.status ≠ "open" := hterm r0 hmem0 hid0
  rw [update_order_status_terminal orders orderId s adminId now r0 hr0 hst0]
  refine ⟨rfl, rfl, ?_⟩
  cases h2 : orders.find? (fun o => decide (o.id = orderId) && decide (o.userId = userId)) with
  | none => simp [cancel_order_by_user, h2]
  | some r1 =>
    have hmem1 := List.mem_of_find?_eq_some h2
    have hp1 := List.find?_some h2
    have hid1 : r1.id = orderId := by
      have := (Bool.and_eq_true _ _).mp hp1
      exact of_decide_eq_true this.1
    have hst1 : r1.status ≠ "open" := hterm r1 hmem1 hid1
    simp only [cancel_order_by_user, h2]
    rw [if_pos hst1]
    exact ⟨rfl, rfl⟩

def wOrderClosed : OrderRow :=
  { id := 1, userId := 10, productId := 2, quantity := "2 tonna", address := "manzil",
    latitude := none, longitude := none, createdAt := "2024-01-01T10:00:00",
    status := "closed", orderPricePerKg := some 1000,
    closedAt := some "2024-01-02T10:00:00", closedBy := some 42, canceledByRole := none }

theorem terminal_orders_reject_all_transitions_witness :
    (update_order_status [wOrderClosed] 1 "canceled" 7 "2024-01-03T00:00:00").1.ok = false ∧
    (update_order_status [wOrderClosed] 1 "canceled" 7 "2024-01-03T00:00:00").2 = [wOrderClosed] ∧
    (cancel_order_by_user [wOrderClosed] 1 10 "2024-01-03T00:00:00").1.ok = false ∧
    (cancel_order_by_user [wOrderClosed] 1 10 "2024-01-03T00:00:00").2 = [wOrderClosed] :=
  terminal_orders_reject_all_transitions [wOrderClosed] 1
    "2024-01-03T00:00:00" "2024-01-03T00:00:00"
    ⟨wOrderClosed, by simp, rfl⟩ (by decide) "canceled" (by decide) 7 10

/-! ### C3 — a race between two transitions has exactly one winner -/

/-- C3: on an open order, of two racing transition attempts (close and/or
cancel, each an atomic conditional update) the first succeeds and the second
fails, changes nothing, and observes the winner's resulting status (and the
winning admin). -/
theorem concurrent_transitions_exactly_one_succeeds
    (orders : List OrderRow) (orderId : Nat) (s1 s2 : String)
    (adminId1 adminId2 : Int) (t1 t2 : String)
    (hs1 : s1 ∈ (["closed", "canceled"] : List String))
    (hex : ∃ r ∈ orders, r.id = orderId)
    (hopen : ∀ r ∈ orders, r.id = orderId → r.status = "open") :
    (update_order_status orders orderId s1 adminId1 t1).1.ok = true ∧
    (update_order_status (update_order_status orders orderId s1 adminId1 t1).2
        orderId s2 adminId2 t2).1 =
      ⟨false, some s1, some adminId1,
        if s1 = "canceled" then some "admin" else none⟩ ∧
    (update_order_status (update_order_status orders orderId s1 adminId1 t1).2
        orderId s2 adminId2 t2).2 =
      (update_order_status orders orderId s1 adminId1 t1).2 := by
  obtain ⟨r0, hr0, hmem0, hid0⟩ := lookupOrder_some_of_exists orders orderId hex
  have hst0 : r0.status = "open" := hopen r0 hmem0 hid0
  have h1 := update_order_status_open orders orderId s1 adminId1 t1 r0 hr0 hst0
  have hs1ne : s1 ≠ "open" := by
    have hs1' : s1 = "closed" ∨ s1 = "canceled" := by simpa using hs1
    rcases hs1' with h | h <;> (rw [h]; decide)
  set g : OrderRow → OrderRow := fun o =>
    if o.id = orderId ∧ o.status = "open" then
      { o with status := s1, closedAt := some t1, closedBy := some adminId1,
               canceledByRole := if s1 = "canceled" then some "admin" else none }
    else o with hgdef
  have hg : ∀ o, (g o).id = o.id := by
    intro o
    by_cases h : o.id = orderId ∧ o.status = "open" <;> simp [hgdef, h]
  have hlook2 : lookupOrder (orders.map g) orderId = some (g r0) := by
    rw [lookupOrder_map_id_preserving g hg orders orderId, hr0]
    rfl
  have hgr0 : g r0 =
      { r0 with status := s1, closedAt := some t1, closedBy := some adminId1,
                canceledByRole := if s1 = "canceled" then some "admin" else none } := by
    simp [hgdef, hid0, hst0]
  have h2 := update_order_status_terminal (orders.map g) orderId s2 adminId2 t2 (g r0)
    hlook2 (by rw [hgr0]; simpa using hs1ne)
  rw [h1]
  refine ⟨rfl, ?_, ?_⟩
  · rw [h2, hgr0]
  · rw [h2]

def wOrderOpen : OrderRow :=
  { id := 1, userId := 10, productId := 2, quantity := "2 tonna", address := "manzil",
    latitude := none, longitude := none, createdAt := "2024-01-01T10:00:00",
    status := "open", orderPricePerKg := some 1000,
    closedAt := none, closedBy := none, canceledByRole := none }

theorem concurrent_transitions_exactly_one_succeeds_witness :
    (update_order_status [wOrderOpen] 1 "closed" 7 "2024-02-01T00:00:00").1.ok = true ∧
    (update_order_status (update_order_status [wOrderOpen] 1 "closed" 7 "2024-02-01T00:00:00").2
        1 "canceled" 8 "2024-02-01T00:00:01").1 =
      ⟨false, some "closed", some 7, none⟩ ∧
    (update_order_status (update_order_status [wOrderOpen] 1 "closed" 7 "2024-02-01T00:00:00").2
        1 "canceled" 8 "2024-02-01T00:00:01").2 =
      (update_order_status [wOrderOpen] 1 "closed" 7 "2024-02-01T00:00:00").2 := by
  have h := concurrent_transitions_exactly_one_succeeds [wOrderOpen] 1 "closed" "canceled"
    7 8 "2024-02-01T00:00:00" "2024-02-01T00:00:01"
    (by decide) ⟨wOrderOpen, by simp, rfl⟩ (by decide)
  simpa using h

/-! ### C5 — initial status of created orders -/

/-- C5 (counterexample): `add_admin_order` does not insert with status `open`:
on an empty table it inserts exactly one row and that row's status is
`closed`. -/
theorem admin_order_inserted_closed_counterexample :
    ((add_admin_order [] 1 2 "2 tonna" "manzil" 5 9 "2024-01-01T00:00:00").2.map
        (fun r => r.status)) = ["closed"] ∧
    ¬ ((add_admin_order [] 1 2 "2 tonna" "manzil" 5 9 "2024-01-01T00:00:00").2.map
        (fun r => r.status)) = ["open"] :=
  ⟨rfl, by decide⟩

/-- C5 (amended): `add_order` (the user flow) inserts its new row with initial
status `open` and no closing fields, while `add_admin_order` (admin-created
orders) inserts its new row already in status `closed`, with `closed_at` and
`closed_by` recorded at creation. -/
theorem order_creation_initial_status
    (orders : List OrderRow) (userId : Int) (productId : Nat)
    (quantity address : String) (price : ℚ) (lat lon : Option ℚ)
    (adminId : Int) (now : String) :
    (∀ r ∈ (add_order orders userId productId quantity address price lat lon now).2,
      r ∈ orders ∨
        (r.status = "open" ∧ r.closedAt = none ∧ r.closedBy = none ∧
          r.canceledByRole = none ∧ r.orderPricePerKg = some price)) ∧
    (∀ r ∈ (add_admin_order orders userId productId quantity address price adminId now).2,
      r ∈ orders ∨
        (r.status = "closed" ∧ r.closedAt = some now ∧ r.closedBy = some adminId ∧
          r.canceledByRole = none ∧ r.orderPricePerKg = some price)) := by
  constructor
  · intro r hr
    rcases List.mem_append.mp hr with h | h
    · exact Or.inl h
    · right
      have : r = { id := nextOrderId orders, userId := userId, productId := productId,
                   quantity := quantity, address := address, latitude := lat, longitude := lon,
                   createdAt := now, status := "open", orderPricePerKg := some price,
                   closedAt := none, closedBy := none, canceledByRole := none } := by
        simpa using h
      rw [this]
      exact ⟨rfl, rfl, rfl, rfl, rfl⟩
  · intro r hr
    rcases List.mem_append.mp hr with h | h
    · exact Or.inl h
    · right
      have : r = { id := nextOrderId orders, userId := userId, productId := productId,
                   quantity := quantity, address := address, latitude := none, longitude := none,
                   createdAt := now, status := "closed", orderPricePerKg := some price,
                   closedAt := some now, closedBy := some adminId, canceledByRole := none } := by
        simpa using h
      rw [this]
      exact ⟨rfl, rfl, rfl, rfl, rfl⟩

def wUserInserted : OrderRow :=
  { id := 1, userId := 10, productId := 2, quantity := "2 tonna", address := "manzil",
    latitude := none, longitude := none, createdAt := "2024-01-01T00:00:00",
    status := "open", orderPricePerKg := some 1000,
    closedAt := none, closedBy := none, canceledByRole := none }

def wAdminInserted : OrderRow :=
  { id := 1, userId := 10, productId := 2, quantity := "2 tonna", address := "manzil",
    latitude := none, longitude := none, createdAt := "2024-01-01T00:00:00",
    status := "closed", orderPricePerKg := some 1000,
    closedAt := some "2024-01-01T00:00:00", closedBy := some 9, canceledByRole := none }

theorem order_creation_initial_status_witness :
    wUserInserted.status = "open" ∧ wUserInserted.closedBy = none ∧
    wAdminInserted.status = "closed" ∧ wAdminInserted.closedBy = some 9 := by
  have h := order_creation_initial_status [] 10 2 "2 tonna" "manzil" 1000 none none 9
    "2024-01-01T00:00:00"
  have h1 := h.1 wUserInserted
    (by simp [wUserInserted, add_order, nextOrderId])
  have h2 := h.2 wAdminInserted
    (by simp [wAdminInserted, add_admin_order, nextOrderId])
  rcases h1 with h1 | h1
  · exact absurd h1 (List.not_mem_nil _)
  rcases h2 with h2 | h2
  · exact absurd h2 (List.not_mem_nil _)
  exact ⟨h1.1, h1.2.2.1, h2.1, h2.2.2.1⟩

/-! ### C2 — failure reasons of the admin close/cancel handlers -/

def wSelfClosed7 : OrderRow :=
  { id := 7, userId := 10, productId := 2, quantity := "2 tonna", address := "manzil",
    latitude := none, longitude := none, createdAt := "2024-01-01T10:00:00",
    status := "closed", orderPricePerKg := some 1000,
    closedAt := some "2024-01-02T10:00:00", closedBy := some 1, canceledByRole := none }

/-- C2 (counterexample): a close attempt on a missing order is not reported
with a not-found reason: it gets the very same generic already-closed text as a
close attempt on an order the caller closed themselves, and a cancel attempt on
a missing order likewise gets the generic already-canceled text. -/
theorem missing_order_close_reported_as_already_closed :
    (close_order_status [] 7 1 "2024-01-03T00:00:00").1 = "✅ Status allaqachon yopilgan." ∧
    (close_order_status [wSelfClosed7] 7 1 "2024-01-03T00:00:00").1 =
      "✅ Status allaqachon yopilgan." ∧
    (cancel_order_status [] 7 1 "2024-01-03T00:00:00").1 =
      "❌ Status allaqachon bekor qilingan." := by
  refine ⟨rfl, rfl, rfl⟩

/-- C2 (amended): for a close or cancel attempt on an order that is already
terminal, the handler reports the specific reason — customer-canceled vs
admin-canceled vs closed-by-another-admin vs closed — and applies no mutation;
an attempt on a missing order is also left unmutated but is reported with the
same generic already-closed (close handler) / already-canceled (cancel handler)
text rather than a distinct not-found reason (only the user's own cancel
handler reports not-found). -/
theorem admin_transition_failure_messages
    (orders : List OrderRow) (orderId : Nat) (adminId : Int) (now : String)
    (hterm : ∀ r ∈ orders, r.id = orderId → r.status ≠ "open") :
    close_order_status orders orderId adminId now =
      (closeFailureReason (lookupOrder orders orderId) adminId, orders) ∧
    cancel_order_status orders orderId adminId now =
      (cancelFailureReason (lookupOrder orders orderId) adminId, orders) := by
  cases h : lookupOrder orders orderId with
  | none =>
    have hu := update_order_status_missing orders orderId "closed" adminId now h
    have hu2 := update_order_status_missing orders orderId "canceled" adminId now h
    constructor
    · simp [close_order_status, hu, closeFailureReason, truthyNe]
    · simp [cancel_order_status, hu2, cancelFailureReason, truthyNe]
  | some r =>
    have h' : orders.find? (fun o => decide (o.id = orderId)) = some r := h
    have hmem := List.mem_of_find?_eq_some h'
    have hid : r.id = orderId := by
      have := List.find?_some h'
      simpa using this
    have hst : r.status ≠ "open" := hterm r hmem hid
    have hu := update_order_status_terminal orders orderId "closed" adminId now r h hst
    have hu2 := update_order_status_terminal orders orderId "canceled" adminId now r h hst
    constructor
    · simp only [close_order_status, hu, closeFailureReason]
      simp only [Bool.false_eq_true, if_false, Option.some.injEq]
      split_ifs <;> rfl
    · simp only [cancel_order_status, hu2, cancelFailureReason]
      simp only [Bool.false_eq_true, if_false, Option.some.injEq]
      split_ifs <;> rfl

theorem admin_transition_failure_messages_witness :
    close_order_status [wOrderClosed] 1 7 "2024-01-03T00:00:00" =
      ("⚠️ Boshqa admin allaqachon statusni yopgan.", [wOrderClosed]) ∧
    cancel_order_status [wOrderClosed] 1 7 "2024-01-03T00:00:00" =
      ("✅ Status allaqachon yopilgan.", [wOrderClosed]) := by
  have h := admin_transition_failure_messages [wOrderClosed] 1 7 "2024-01-03T00:00:00"
    (by decide)
  refine ⟨?_, ?_⟩
  · rw [h.1]
    rfl
  · rw [h.2]
    rfl

/-! ### C4 — frozen order price is immune to product price changes -/

/-- C4: for an order stored with a frozen per-kilogram price,
`update_product_price` leaves the order row (hence its
`order_price_per_kg`) unchanged, and the order's computed total (as in
`format_deal_price`) is the same before and after the product price change. -/
theorem frozen_price_immune_to_product_price_change
    (store : Store) (productId : Nat) (newPrice : ℚ) (orderId : Nat) (row : OrderRow)
    (hlook : lookupOrder store.orders orderId = some row)
    (p : ℚ) (hfrozen : row.orderPricePerKg = some p) :
    lookupOrder (update_product_price store productId newPrice).orders orderId = some row ∧
    (lookupOrder (update_product_price store productId newPrice).orders orderId).map
        (fun r => r.orderPricePerKg) = some (some p) ∧
    (lookupOrder (update_product_price store productId newPrice).orders orderId).map
        (fun r => format_deal_price r.quantity r.orderPricePerKg) =
      (lookupOrder store.orders orderId).map
        (fun r => format_deal_price r.quantity r.orderPricePerKg) := by
  have horders : (update_product_price store productId newPrice).orders = store.orders := rfl
  rw [horders, hlook]
  exact ⟨rfl, by simp [hfrozen], rfl⟩

def wUser : UserRow :=
  { id := 10, tgId := 555, firstName := some "Ali", lastName := none,
    phone := some "998901234567", createdAt := "2024-01-01T00:00:00",
    lastActive := "2024-01-01T00:00:00", activityCount := 1, isBlocked := false }

def wProduct : ProductRow :=
  { id := 2, name := "Shrot", pricePerKg := 1000, description := none, isDeleted := false }

def wStore : Store := { users := [wUser], products := [wProduct], orders := [wOrderOpen] }

theorem frozen_price_immune_to_product_price_change_witness :
    lookupOrder (update_product_price wStore 2 1200).orders 1 = some wOrderOpen ∧
    (lookupOrder (update_product_price wStore 2 1200).orders 1).map
        (fun r => r.orderPricePerKg) = some (some 1000) ∧
    (lookupOrder (update_product_price wStore 2 1200).orders 1).map
        (fun r => format_deal_price r.quantity r.orderPricePerKg) =
      (lookupOrder wStore.orders 1).map
        (fun r => format_deal_price r.quantity r.orderPricePerKg) :=
  frozen_price_immune_to_product_price_change wStore 2 1200 1 wOrderOpen rfl 1000 rfl

/-! ### C6 — hard delete removes the row, only after confirmation -/

/-- C6: the delete-id step never mutates the database and, when its input
parses to the id of an existing order, shows that order inside an explicit
confirmation prompt and moves to the confirmation step; the confirmation
callback removes exactly the order's row from the table, and the keep callback
removes nothing. -/
theorem hard_delete_requires_confirmation
    (store : Store) (text : String) (orderId : Nat) (details : OrderDetails) :
    (handle_order_delete_id store text).2.2 = store ∧
    (¬ is_cancel_message text = true → firstNatChars text.toList = some orderId →
      get_order_with_details store orderId = some details →
      handle_order_delete_id store text =
        (.confirmPrompt ("❗ Buyurtmani o\x27chirmoqchimisiz? Bu amal qaytarilmaydi.\n\n"
            ++ format_admin_order_details details), .confirmStep orderId, store)) ∧
    (orderId ≠ 0 → (∃ r ∈ store.orders, r.id = orderId) →
      confirm_order_delete store (some orderId) =
        (.deletedOk orderId,
          { store with orders := store.orders.filter (fun o => !decide (o.id = orderId)) })) ∧
    cancel_order_delete store = (.keptRow, store) := by
  refine ⟨?_, ?_, ?_, rfl⟩
  · by_cases hc : is_cancel_message text = true
    · simp [handle_order_delete_id, hc]
    · cases hn : firstNatChars text.toList with
      | none =>
        have hn' : firstNatChars text.data = none := hn
        simp [handle_order_delete_id, hc, hn']
      | some oid =>
        have hn' : firstNatChars text.data = some oid := hn
        cases hg : get_order_with_details store oid with
        | none => simp [handle_order_delete_id, hc, hn', hg]
        | some d => simp [handle_order_delete_id, hc, hn', hg]
  · intro h1 h2 h3
    have h2' : firstNatChars text.data = some orderId := h2
    simp [handle_order_delete_id, h1, h2', h3]
  · intro h0 hex
    have hany : store.orders.any (fun o => decide (o.id = orderId)) = true := by
      rw [List.any_eq_true]
      obtain ⟨r, hr, hid⟩ := hex
      exact ⟨r, hr, by simp [hid]⟩
    simp [confirm_order_delete, delete_order, h0, hany]

def wDetails : OrderDetails :=
  { id := 1, quantity := "2 tonna", address := "manzil", latitude := none, longitude := none,
    createdAt := "2024-01-01T10:00:00", status := "open", orderPricePerKg := some 1000,
    closedBy := none, canceledByRole := none, firstName := some "Ali", lastName := none,
    phone := some "998901234567", productName := "Shrot", productPricePerKg := 1000 }

theorem hard_delete_requires_confirmation_witness :
    (handle_order_delete_id wStore "1").2.2 = wStore ∧
    (handle_order_delete_id wStore "1").2.1 = DeleteStep.confirmStep 1 ∧
    (confirm_order_delete wStore (some 1)).1 = ConfirmDeleteReply.deletedOk 1 ∧
    (confirm_order_delete wStore (some 1)).2.orders = [] ∧
    cancel_order_delete wStore = (.keptRow, wStore) := by
  have h := hard_delete_requires_confirmation wStore "1" 1 wDetails
  have hprompt := h.2.1 (by decide) (by decide) rfl
  have hdel := h.2.2.1 (by decide) ⟨wOrderOpen, by simp [wStore], rfl⟩
  refine ⟨h.1, ?_, ?_, ?_, h.2.2.2⟩
  · rw [hprompt]
  · rw [hdel]
  · rw [hdel]
    rfl

/-! ### C9 — the report query returns exactly the closed orders in range -/

theorem mem_insertByCreated (x a : ReportRow) (l : List ReportRow) :
    a ∈ insertByCreated x l ↔ a = x ∨ a ∈ l := by
  induction l with
  | nil => simp [insertByCreated]
  | cons y t ih =>
    simp only [insertByCreated]
    split
    · simp [List.mem_cons]
    · simp only [List.mem_cons, ih]
      tauto

theorem mem_sortByCreated (a : ReportRow) (l : List ReportRow) :
    a ∈ sortByCreated l ↔ a ∈ l := by
  induction l with
  | nil => simp [sortByCreated]
  | cons x t ih => simp [sortByCreated, mem_insertByCreated, ih, List.mem_cons]

theorem strLeChars_refl (l : List Char) : strLeChars l l = true := by
  induction l with
  | nil => rfl
  | cons c t ih => simp [strLeChars, ih]

/-- C9: for every date range, `list_orders_for_report` returns exactly the
orders with status `closed` (and resolvable user/product references) whose
effective date — `closed_at`, falling back to `created_at` — lies in the
inclusive range: an order whose effective date equals `end`'s date is included,
and one whose effective date is after `end`'s date is excluded. -/
theorem report_query_exact_inclusive_range
    (store : Store) (startAt endAt : String)
    (huniq : ∀ o1 ∈ store.orders, ∀ o2 ∈ store.orders, o1.id = o2.id → o1 = o2) :
    (∀ o ∈ store.orders,
      ((∃ rr ∈ list_orders_for_report store startAt endAt, rr.id = o.id) ↔
        ((∃ u, store.users.find? (fun x => decide (x.id = o.userId)) = some u) ∧
         (∃ p, store.products.find? (fun x => decide (x.id = o.productId)) = some p) ∧
         o.status = "closed" ∧
         strLeChars (dateKey startAt) (dateKey (o.closedAt.getD o.createdAt)) = true ∧
         strLeChars (dateKey (o.closedAt.getD o.createdAt)) (dateKey endAt) = true))) ∧
    (∀ o ∈ store.orders,
      (∃ u, store.users.find? (fun x => decide (x.id = o.userId)) = some u) →
      (∃ p, store.products.find? (fun x => decide (x.id = o.productId)) = some p) →
      o.status = "closed" →
      strLeChars (dateKey startAt) (dateKey (o.closedAt.getD o.createdAt)) = true →
      dateKey (o.closedAt.getD o.createdAt) = dateKey endAt →
      ∃ rr ∈ list_orders_for_report store startAt endAt, rr.id = o.id) ∧
    (∀ o ∈ store.orders,
      ¬ strLeChars (dateKey (o.closedAt.getD o.createdAt)) (dateKey endAt) = true →
      ¬ ∃ rr ∈ list_orders_for_report store startAt endAt, rr.id = o.id) := by
  have hiff : ∀ o ∈ store.orders,
      ((∃ rr ∈ list_orders_for_report store startAt endAt, rr.id = o.id) ↔
        ((∃ u, store.users.find? (fun x => decide (x.id = o.userId)) = some u) ∧
         (∃ p, store.products.find? (fun x => decide (x.id = o.productId)) = some p) ∧
         o.status = "closed" ∧
         strLeChars (dateKey startAt) (dateKey (o.closedAt.getD o.createdAt)) = true ∧
         strLeChars (dateKey (o.closedAt.getD o.createdAt)) (dateKey endAt) = true)) := by
    intro o ho
    constructor
    · rintro ⟨rr, hrr, hid⟩
      rw [list_orders_for_report, mem_sortByCreated, List.mem_filterMap] at hrr
      obtain ⟨o2, ho2, hfo⟩ := hrr
      rcases hfu : store.users.find? (fun x => decide (x.id = o2.userId)) with _ | u
      · simp [hfu] at hfo
      rcases hfp : store.products.find? (fun x => decide (x.id = o2.productId)) with _ | p
      · simp [hfu, hfp] at hfo
      simp only [hfu, hfp] at hfo
      by_cases hhit : reportFilterHit o2 startAt endAt = true
      · rw [if_pos hhit] at hfo
        have hrr2 : rr = mkReportRow o2 u p := (Option.some.inj hfo).symm
        have hid2 : o2.id = o.id := by
          rw [← hid, hrr2]
          rfl
        have heq := huniq o2 ho2 o ho hid2
        subst heq
        have hhit2 := hhit
        simp only [reportFilterHit, Bool.and_eq_true, decide_eq_true_eq] at hhit2
        exact ⟨⟨u, hfu⟩, ⟨p, hfp⟩, hhit2.1.1, hhit2.1.2, hhit2.2⟩
      · rw [if_neg hhit] at hfo
        cases hfo
    · rintro ⟨⟨u, hfu⟩, ⟨p, hfp⟩, hclosed, hge, hle⟩
      refine ⟨mkReportRow o u p, ?_, rfl⟩
      rw [list_orders_for_report, mem_sortByCreated, List.mem_filterMap]
      refine ⟨o, ho, ?_⟩
      simp only [hfu, hfp]
      rw [if_pos]
      simp [reportFilterHit, hclosed, hge, hle]
  refine ⟨hiff, ?_, ?_⟩
  · intro o ho hu hp hclosed hge heq
    exact (hiff o ho).mpr ⟨hu, hp, hclosed, hge, by rw [heq]; exact strLeChars_refl _⟩
  · intro o ho hnle hex
    exact hnle ((hiff o ho).mp hex).2.2.2.2

def wClosedMar31 : OrderRow :=
  { id := 1, userId := 10, productId := 2, quantity := "2 tonna", address := "manzil",
    latitude := none, longitude := none, createdAt := "2024-03-10T09:00:00",
    status := "closed", orderPricePerKg := some 1000,
    closedAt := some "2024-03-31T12:00:00", closedBy := some 42, canceledByRole := none }

def wClosedApr01 : OrderRow :=
  { id := 2, userId := 10, productId := 2, quantity := "3 tonna", address := "manzil",
    latitude := none, longitude := none, createdAt := "2024-03-11T09:00:00",
    status := "closed", orderPricePerKg := some 1000,
    closedAt := some "2024-04-01T00:00:00", closedBy := some 42, canceledByRole := none }

def wStoreReport : Store :=
  { users := [wUser], products := [wProduct], orders := [wClosedMar31, wClosedApr01] }

theorem report_query_exact_inclusive_range_witness :
    (∃ rr ∈ list_orders_for_report wStoreReport "2024-03-01" "2024-03-31", rr.id = 1) ∧
    (¬ ∃ rr ∈ list_orders_for_report wStoreReport "2024-03-01" "2024-03-31", rr.id = 2) := by
  have h := report_query_exact_inclusive_range wStoreReport "2024-03-01" "2024-03-31"
    (by decide)
  constructor
  · exact h.2.1 wClosedMar31 (by decide) ⟨wUser, rfl⟩ ⟨wProduct, rfl⟩ rfl (by decide)
      (by decide)
  · exact h.2.2 wClosedApr01 (by decide) (by decide)

/-! ### C10 — NULL/zero frozen price falls back to the product price -/

theorem pyOrPrice_falsy (a : Option ℚ) (b : ℚ) (h : a = none ∨ a = some 0) :
    pyOrPrice a b = b := by
  rcases h with h | h <;> simp [h, pyOrPrice]

theorem pyOrPrice_self (b : ℚ) : pyOrPrice (some b) b = b := by
  by_cases h : b = 0 <;> simp [pyOrPrice, h]

/-- C10: when an order's stored `order_price_per_kg` is NULL or zero, the
order-message formatters and the report aggregation substitute the product's
current `price_per_kg` via the `or` fallback: the rendered messages equal those
of the same row frozen at the current product price, and the row's report
contribution is quantity-in-kg times the current product price. -/
theorem null_or_zero_frozen_price_tracks_product_price
    (order : OrderDetails) (row : StatsRow)
    (hfrozen : order.orderPricePerKg = none ∨ order.orderPricePerKg = some 0)
    (hrow : row.orderPricePerKg = none ∨ row.orderPricePerKg = some 0)
    (kg : ℚ) (hq : parse_quantity_to_kg row.quantity = some kg) :
    (∀ b1 b2 : Bool, format_order_message order b1 b2 =
      format_order_message { order with orderPricePerKg := some order.productPricePerKg } b1 b2) ∧
    (format_user_order_message order =
      format_user_order_message { order with orderPricePerKg := some order.productPricePerKg }) ∧
    (calculate_report_stats [row]).1 = kg * row.productPricePerKg := by
  have hpp : pyOrPrice order.orderPricePerKg order.productPricePerKg =
      order.productPricePerKg := pyOrPrice_falsy _ _ hfrozen
  have hpp2 : pyOrPrice (some order.productPricePerKg) order.productPricePerKg =
      order.productPricePerKg := pyOrPrice_self _
  have hppr : pyOrPrice row.orderPricePerKg row.productPricePerKg =
      row.productPricePerKg := pyOrPrice_falsy _ _ hrow
  refine ⟨?_, ?_, ?_⟩
  · intro b1 b2
    simp only [format_order_message, hpp, hpp2]
  · simp only [format_user_order_message, hpp, hpp2]
  · simp only [calculate_report_stats, List.foldl_cons, List.foldl_nil, hq, hppr]
    ring

def wDetailsNull : OrderDetails :=
  { id := 3, quantity := "2 tonna", address := "manzil", latitude := none, longitude := none,
    createdAt := "2024-01-01T10:00:00", status := "open", orderPricePerKg := none,
    closedBy := none, canceledByRole := none, firstName := some "Ali", lastName := none,
    phone := some "998901234567", productName := "Shrot", productPricePerKg := 1200 }

def wStatsNull : StatsRow :=
  { userId := 10, productName := "Shrot", firstName := some "Ali", lastName := none,
    phone := some "998901234567", quantity := "2 tonna", orderPricePerKg := none,
    productPricePerKg := 1200 }

theorem null_or_zero_frozen_price_tracks_product_price_witness :
    (format_order_message wDetailsNull true true =
      format_order_message
        { wDetailsNull with orderPricePerKg := some wDetailsNull.productPricePerKg } true true) ∧
    (calculate_report_stats [wStatsNull]).1 = 2000 * wStatsNull.productPricePerKg := by
  have h := null_or_zero_frozen_price_tracks_product_price wDetailsNull wStatsNull
    (Or.inl rfl) (Or.inl rfl) 2000
    (by show parse_quantity_to_kg "2 tonna" = some 2000
        rw [show parse_quantity_to_kg "2 tonna" = some (((2 : ℕ) : ℚ) * 1000) from rfl]
        norm_num)
  exact ⟨h.1 true true, h.2.2⟩

/-! ### C7 — the "2,3" quantity scenario -/

theorem formatPriceChars_23_10 : formatPriceChars (23 / 10) = ['2', '.', '3'] := by
  have hfloor : ⌊(23 / 10 : ℚ)⌋ = 2 := by norm_num
  have hround : roundE (23 / 10) = 2 := by
    unfold roundE
    rw [hfloor, if_pos (by norm_num)]
  have h100eq : (100 * (23 / 10 : ℚ)) = 230 := by norm_num
  have hfloor230 : ⌊(230 : ℚ)⌋ = 230 := by norm_num
  have h100 : roundE (100 * (23 / 10 : ℚ)) = 230 := by
    rw [h100eq]
    unfold roundE
    rw [hfloor230, if_pos (by norm_num)]
  unfold formatPriceChars
  rw [hround]
  rw [if_neg (by unfold absQ EPS; rw [if_neg (by norm_num)]; norm_num)]
  unfold twoDecChars
  rw [h100]
  decide

/-- C7: the user-flow quantity input "2,3" is accepted and normalized to the
stored/displayed string "2.3 tonna"; that stored string parses back to 2300
kilograms via the tonna/t unit marker, and the order total computed from it (as
in `format_deal_price`) is 2300 times the frozen price per kilogram. -/
theorem quantity_two_comma_three_scenario :
    order_quantity "2,3" = QuantityReply.accepted "2.3 tonna" ∧
    parse_quantity_to_kg "2.3 tonna" = some 2300 ∧
    ∀ p : ℚ, format_deal_price "2.3 tonna" (some p) =
      format_money_with_commas (some (2300 * p)) ++ " сум" := by
  have hq : parse_quantity_to_tons "2,3" = some (23 / 10) := by
    rw [show parse_quantity_to_tons "2,3" =
      some (((2 : ℕ) : ℚ) + ((3 : ℕ) : ℚ) / 10 ^ (1 : ℕ)) from rfl]
    norm_num
  have hkg : parse_quantity_to_kg "2.3 tonna" = some 2300 := by
    rw [show parse_quantity_to_kg "2.3 tonna" =
      some ((((2 : ℕ) : ℚ) + ((3 : ℕ) : ℚ) / 10 ^ (1 : ℕ)) * 1000) from rfl]
    norm_num
  refine ⟨?_, hkg, ?_⟩
  · unfold order_quantity
    rw [if_neg (by decide)]
    rw [hq]
    simp only []
    rw [if_neg (by norm_num)]
    simp only [format_price]
    rw [formatPriceChars_23_10]
    rfl
  · intro p
    unfold format_deal_price
    rw [hkg]

/-! ### C8 — machinery: decimal rendering round-trips through parsing -/

theorem digitVal_digitChar : ∀ d, d < 10 → digitVal (digitChar d) = d := by decide

theorem isDigitCh_digitChar : ∀ d, d < 10 → isDigitCh (digitChar d) = true := by decide

theorem digitChar_eq_zero_iff : ∀ d, d < 10 → ((digitChar d = '0') ↔ d = 0) := by decide

theorem digitsToNat_append_single (l : List Char) (c : Char) :
    digitsToNat (l ++ [c]) = 10 * digitsToNat l + digitVal c := by
  simp [digitsToNat, List.foldl_append]

theorem natDigitsRev_lt (f n : ℕ) : ∀ d ∈ natDigitsRev f n, d < 10 := by
  induction f generalizing n with
  | zero => cases n <;> simp [natDigitsRev]
  | succ f ih =>
    cases n with
    | zero => simp [natDigitsRev]
    | succ m =>
      intro d hd
      simp only [natDigitsRev, List.mem_cons] at hd
      rcases hd with h | h
      · omega
      · exact ih _ d h

theorem natDigitsRev_val (f : ℕ) : ∀ n, n ≤ f →
    digitsToNat (((natDigitsRev f n).map digitChar).reverse) = n := by
  induction f with
  | zero =>
    intro n hn
    interval_cases n
    rfl
  | succ f ih =>
    intro n hn
    cases n with
    | zero => rfl
    | succ m =>
      have hdiv : (m + 1) / 10 ≤ f := by
        have := Nat.div_le_self (m + 1) 10
        have h10 : (m + 1) / 10 < m + 1 := Nat.div_lt_self (Nat.succ_pos m) (by norm_num)
        omega
      have hmod : (m + 1) % 10 < 10 := Nat.mod_lt _ (by norm_num)
      calc digitsToNat (((natDigitsRev (f + 1) (m + 1)).map digitChar).reverse)
          = digitsToNat ((((m + 1) % 10 :: natDigitsRev f ((m + 1) / 10)).map
              digitChar).reverse) := rfl
        _ = digitsToNat ((((natDigitsRev f ((m + 1) / 10)).map digitChar).reverse)
              ++ [digitChar ((m + 1) % 10)]) := by
            simp [List.map_cons, List.reverse_cons]
        _ = 10 * digitsToNat (((natDigitsRev f ((m + 1) / 10)).map digitChar).reverse)
              + digitVal (digitChar ((m + 1) % 10)) := digitsToNat_append_single _ _
        _ = 10 * ((m + 1) / 10) + (m + 1) % 10 := by
            rw [ih _ hdiv, digitVal_digitChar _ hmod]
        _ = m + 1 := by omega

theorem natChars_ne_nil (n : ℕ) : natChars n ≠ [] := by
  unfold natChars
  by_cases h : n = 0
  · simp [h]
  · rw [if_neg h]
    cases n with
    | zero => exact absurd rfl h
    | succ m =>
      simp [natDigitsRev]

theorem natChars_digits (n : ℕ) : ∀ c ∈ natChars n, isDigitCh c = true := by
  unfold natChars
  by_cases h : n = 0
  · simp [h]
    decide
  · rw [if_neg h]
    intro c hc
    rw [List.mem_reverse, List.mem_map] at hc
    obtain ⟨d, hd, hdc⟩ := hc
    rw [← hdc]
    exact isDigitCh_digitChar d (natDigitsRev_lt n n d hd)

theorem digitsToNat_natChars (n : ℕ) : digitsToNat (natChars n) = n := by
  unfold natChars
  by_cases h : n = 0
  · simp [h]
    rfl
  · rw [if_neg h]
    exact natDigitsRev_val n n le_rfl

theorem takeWhile_append_all {p : Char → Bool} {A : List Char} (B : List Char)
    (h : ∀ c ∈ A, p c = true) :
    (A ++ B).takeWhile p = A ++ B.takeWhile p := by
  induction A with
  | nil => simp
  | cons hd tl ih =>
    have htl : ∀ c ∈ tl, p c = true := fun c hc => h c (List.mem_cons_of_mem hd hc)
    rw [List.cons_append, List.takeWhile_cons, h hd (List.mem_cons_self hd tl),
      if_pos rfl, ih htl, List.cons_append]

theorem dropWhile_append_all {p : Char → Bool} {A : List Char} (B : List Char)
    (h : ∀ c ∈ A, p c = true) :
    (A ++ B).dropWhile p = B.dropWhile p := by
  induction A with
  | nil => simp
  | cons hd tl ih =>
    have htl : ∀ c ∈ tl, p c = true := fun c hc => h c (List.mem_cons_of_mem hd hc)
    rw [List.cons_append, List.dropWhile_cons, h hd (List.mem_cons_self hd tl),
      if_pos rfl, ih htl]

theorem dropWhile_all_false {p : Char → Bool} {l : List Char}
    (h : ∀ c ∈ l, p c = false) : l.dropWhile p = l := by
  cases l with
  | nil => rfl
  | cons a t =>
    have ha : p a = false := h a (by simp)
    simp [List.dropWhile_cons, ha]

theorem takeWhile_all_eq_self {p : Char → Bool} {A : List Char}
    (h : ∀ c ∈ A, p c = true) : A.takeWhile p = A := by
  have := takeWhile_append_all (p := p) (A := A) [] h
  simpa using this

theorem dropWhile_all_eq_nil {p : Char → Bool} {A : List Char}
    (h : ∀ c ∈ A, p c = true) : A.dropWhile p = [] := by
  have := dropWhile_append_all (p := p) (A := A) [] h
  simpa using this

theorem trimChars_eq_self {l : List Char} (h : ∀ c ∈ l, isSpaceCh c = false) :
    trimChars l = l := by
  unfold trimChars
  rw [dropWhile_all_false h]
  rw [dropWhile_all_false (fun c hc => h c (List.mem_reverse.mp hc))]
  exact List.reverse_reverse l

theorem digit_not_space {c : Char} (h : isDigitCh c = true) : isSpaceCh c = false := by
  have h48 : 48 ≤ c.toNat ∧ c.toNat ≤ 57 := by
    simpa [isDigitCh, Bool.and_eq_true, decide_eq_true_eq] using h
  unfold isSpaceCh
  simp only [Bool.or_eq_false_iff, decide_eq_false_iff_not]
  refine ⟨⟨⟨⟨⟨?_, ?_⟩, ?_⟩, ?_⟩, ?_⟩, ?_⟩ <;>
    (intro he; subst he; exact absurd h48.1 (by decide))

theorem dot_not_space : isSpaceCh '.' = false := by decide

theorem dot_not_digit : isDigitCh '.' = false := by decide

theorem parseTonsChars_digits {A : List Char} (hne : A ≠ [])
    (hdig : ∀ c ∈ A, isDigitCh c = true) :
    parseTonsChars A = some ((digitsToNat A : ℕ) : ℚ) := by
  unfold parseTonsChars
  rw [takeWhile_all_eq_self hdig, dropWhile_all_eq_nil hdig]
  show (if A.isEmpty = true then none else some ((digitsToNat A : ℕ) : ℚ)) = _
  rw [if_neg (by simpa [List.isEmpty_iff] using hne)]

theorem parseTonsChars_with_frac {A F : List Char} (sep : Char)
    (hAne : A ≠ []) (hAdig : ∀ c ∈ A, isDigitCh c = true)
    (hsep : sep = '.' ∨ sep = ',') (hsepd : isDigitCh sep = false)
    (hFne : F ≠ []) (hFdig : ∀ c ∈ F, isDigitCh c = true) :
    parseTonsChars (A ++ sep :: F) =
      some ((digitsToNat A : ℕ) + ((digitsToNat F : ℕ) : ℚ) / 10 ^ F.length) := by
  unfold parseTonsChars
  rw [takeWhile_append_all (sep :: F) hAdig, dropWhile_append_all (sep :: F) hAdig]
  rw [List.takeWhile_cons, if_neg (by simp [hsepd]), List.append_nil]
  rw [List.dropWhile_cons, if_neg (by simp [hsepd])]
  show (if A.isEmpty = true then none
        else if (sep = '.' ∨ sep = ',') ∧ ¬F.isEmpty = true ∧ F.all isDigitCh = true then
          some (((digitsToNat A : ℕ) : ℚ) + ((digitsToNat F : ℕ) : ℚ) / 10 ^ F.length)
        else none) = _
  rw [if_neg (by simpa [List.isEmpty_iff] using hAne)]
  rw [if_pos ⟨hsep, by simpa [List.isEmpty_iff] using hFne,
    by simpa [List.all_eq_true] using hFdig⟩]

theorem rstripCh_last_ne {l : List Char} {a : Char} {t : List Char} (c : Char)
    (hlast : l.reverse = a :: t) (hne : a ≠ c) : rstripCh l c = l := by
  unfold rstripCh
  rw [hlast, List.dropWhile_cons, if_neg (by simp [hne]), ← hlast, List.reverse_reverse]

theorem digit_ne_dot {c : Char} (h : isDigitCh c = true) : c ≠ '.' := by
  intro he
  rw [he] at h
  exact absurd h (by decide)

theorem stripTail_shape_keep {X : List Char} (d1 d2 : Char)
    (hd2dig : isDigitCh d2 = true) (hd2 : d2 ≠ '0') :
    stripTail (X ++ '.' :: [d1, d2]) = X ++ '.' :: [d1, d2] := by
  have hrev : (X ++ '.' :: [d1, d2]).reverse = d2 :: (d1 :: '.' :: X.reverse) := by simp
  unfold stripTail
  rw [rstripCh_last_ne '0' hrev hd2, rstripCh_last_ne '.' hrev (digit_ne_dot hd2dig)]

theorem stripTail_shape_one {X : List Char} (d1 : Char)
    (hd1dig : isDigitCh d1 = true) (hd1 : d1 ≠ '0') :
    stripTail (X ++ '.' :: [d1, '0']) = X ++ ['.', d1] := by
  unfold stripTail
  have h1 : rstripCh (X ++ '.' :: [d1, '0']) '0' = X ++ ['.', d1] := by
    unfold rstripCh
    rw [show (X ++ '.' :: [d1, '0']).reverse = '0' :: d1 :: '.' :: X.reverse by simp]
    rw [List.dropWhile_cons, if_pos (by simp)]
    rw [List.dropWhile_cons, if_neg (by simp [hd1])]
    simp
  rw [h1]
  exact rstripCh_last_ne '.'
    (show (X ++ ['.', d1]).reverse = d1 :: ('.' :: X.reverse) by simp)
    (digit_ne_dot hd1dig)

theorem stripTail_shape_int {X : List Char}
    (hXdig : ∀ c ∈ X, isDigitCh c = true) :
    stripTail (X ++ '.' :: ['0', '0']) = X := by
  unfold stripTail
  have h1 : rstripCh (X ++ '.' :: ['0', '0']) '0' = X ++ ['.'] := by
    unfold rstripCh
    rw [show (X ++ '.' :: ['0', '0']).reverse = '0' :: '0' :: '.' :: X.reverse by simp]
    rw [List.dropWhile_cons, if_pos (by simp)]
    rw [List.dropWhile_cons, if_pos (by simp)]
    rw [List.dropWhile_cons, if_neg (by simp)]
    simp
  rw [h1]
  unfold rstripCh
  rw [show (X ++ ['.']).reverse = '.' :: X.reverse by simp]
  rw [List.dropWhile_cons, if_pos (by simp)]
  have hall : ∀ c ∈ X.reverse, (fun x => decide (x = '.')) c = false := by
    intro c hc
    simp only [decide_eq_false_iff_not]
    exact digit_ne_dot (hXdig c (List.mem_reverse.mp hc))
  rw [dropWhile_all_false hall, List.reverse_reverse]

theorem mem_rstripCh {l : List Char} {c a : Char} (h : a ∈ rstripCh l c) : a ∈ l := by
  unfold rstripCh at h
  rw [List.mem_reverse] at h
  exact List.mem_reverse.mp ((List.dropWhile_sublist _).mem h)

theorem mem_stripTail {l : List Char} {a : Char} (h : a ∈ stripTail l) : a ∈ l :=
  mem_rstripCh (mem_rstripCh h)

theorem roundE_intCast (z : ℤ) : roundE ((z : ℤ) : ℚ) = z := by
  unfold roundE
  rw [Int.floor_intCast]
  rw [if_pos (by rw [sub_self]; norm_num)]

theorem roundE_natCast (n : ℕ) : roundE ((n : ℕ) : ℚ) = (n : ℤ) := by
  have h := roundE_intCast (n : ℤ)
  rw [show (((n : ℕ) : ℤ) : ℚ) = ((n : ℕ) : ℚ) by push_cast; ring] at h
  exact h

theorem roundE_eq_floor_or (q : ℚ) : roundE q = ⌊q⌋ ∨ roundE q = ⌊q⌋ + 1 := by
  unfold roundE
  split_ifs <;> simp

theorem floor_le_roundE (q : ℚ) : ⌊q⌋ ≤ roundE q := by
  rcases roundE_eq_floor_or q with h | h <;> omega

theorem roundE_nonneg {q : ℚ} (h : 0 ≤ q) : 0 ≤ roundE q :=
  le_trans (Int.floor_nonneg.mpr h) (floor_le_roundE q)

theorem floor_nat_div_100 (k c : ℕ) (hc : c < 100) :
    ⌊((k : ℚ) + (c : ℚ) / 100)⌋ = (k : ℤ) := by
  rw [Int.floor_eq_iff]
  constructor
  · push_cast
    have h0 : (0 : ℚ) ≤ (c : ℚ) / 100 := by positivity
    linarith
  · push_cast
    have h1 : (c : ℚ) / 100 < 1 := by
      rw [div_lt_one (by norm_num)]
      exact_mod_cast hc
    linarith

theorem absQ_lt {x y : ℚ} : absQ x < y ↔ -y < x ∧ x < y := by
  unfold absQ
  split_ifs with h
  · constructor
    · intro h2
      constructor <;> linarith
    · intro h2
      linarith
  · constructor
    · intro h2
      constructor <;> linarith
    · intro h2
      linarith

theorem formatPriceChars_natCast (n : ℕ) : formatPriceChars ((n : ℕ) : ℚ) = natChars n := by
  unfold formatPriceChars
  rw [roundE_natCast]
  rw [if_pos (by
    rw [show ((n : ℚ) - (((n : ℕ) : ℤ) : ℚ)) = 0 by push_cast; ring]
    unfold absQ EPS
    norm_num)]
  unfold intChars
  rw [if_neg (by omega)]
  rw [show ((n : ℕ) : ℤ).natAbs = n from Int.natAbs_ofNat n]

theorem formatPriceChars_div100 (a : ℕ) :
    formatPriceChars ((a : ℚ) / 100) =
      stripTail (natChars (a / 100) ++ '.' :: pad2 (a % 100)) := by
  set k := a / 100 with hk
  set c := a % 100 with hcdef
  have hc : c < 100 := Nat.mod_lt _ (by norm_num)
  have ha : a = 100 * k + c := by
    rw [hk, hcdef]
    omega
  have hq : (a : ℚ) / 100 = (k : ℚ) + (c : ℚ) / 100 := by
    rw [ha]
    push_cast
    ring
  by_cases hc0 : c = 0
  · have hq' : (a : ℚ) / 100 = ((k : ℕ) : ℚ) := by
      rw [hq, hc0]
      push_cast
      ring
    rw [hq', formatPriceChars_natCast, hc0]
    rw [show pad2 0 = ['0', '0'] from rfl]
    rw [stripTail_shape_int (natChars_digits k)]
  · have hfl : ⌊(a : ℚ) / 100⌋ = (k : ℤ) := by
      rw [hq]
      exact floor_nat_div_100 k c hc
    have hcpos : 1 ≤ c := Nat.one_le_iff_ne_zero.mpr hc0
    have hc1 : (1 : ℚ) ≤ (c : ℚ) := by exact_mod_cast hcpos
    have hc99 : (c : ℚ) ≤ 99 := by
      have : c ≤ 99 := by omega
      exact_mod_cast this
    have hnotint : ¬ absQ ((a : ℚ) / 100 - (roundE ((a : ℚ) / 100) : ℚ)) < EPS := by
      rcases roundE_eq_floor_or ((a : ℚ) / 100) with h | h
      · rw [h, hfl]
        intro hlt
        rw [absQ_lt] at hlt
        have h1 : ((a : ℚ) / 100 - ((k : ℤ) : ℚ)) = (c : ℚ) / 100 := by
          rw [hq]
          push_cast
          ring
        rw [h1] at hlt
        unfold EPS at hlt
        have := hlt.2
        linarith
      · rw [h, hfl]
        intro hlt
        rw [absQ_lt] at hlt
        have h1 : ((a : ℚ) / 100 - (((k : ℤ) + 1 : ℤ) : ℚ)) = ((c : ℚ) - 100) / 100 := by
          rw [hq]
          push_cast
          ring
        rw [h1] at hlt
        unfold EPS at hlt
        have := hlt.1
        linarith
    unfold formatPriceChars
    rw [if_neg hnotint]
    simp only [twoDecChars]
    rw [show (100 : ℚ) * ((a : ℚ) / 100) = ((a : ℕ) : ℚ) by ring]
    rw [roundE_natCast]
    rw [if_neg (by omega)]
    rw [show ((a : ℕ) : ℤ).natAbs = a from Int.natAbs_ofNat a]

theorem digitsToNat_single (c : Char) : digitsToNat [c] = digitVal c := by
  simp [digitsToNat]

theorem digitsToNat_pair (c1 c2 : Char) :
    digitsToNat [c1, c2] = 10 * digitVal c1 + digitVal c2 := by
  simp [digitsToNat]

theorem formatPriceChars_roundtrip (q : ℚ) (hq : 0 ≤ q) :
    ∃ a : ℕ, parseTonsChars (formatPriceChars q) = some ((a : ℚ) / 100) ∧
      formatPriceChars ((a : ℚ) / 100) = formatPriceChars q ∧
      (2 ≤ q → 2 ≤ (a : ℚ) / 100) := by
  by_cases hint : absQ (q - (roundE q : ℚ)) < EPS
  · set m := roundE q with hm
    have hm0 : 0 ≤ m := roundE_nonneg hq
    have hfmt : formatPriceChars q = natChars m.natAbs := by
      unfold formatPriceChars
      rw [← hm, if_pos hint]
      unfold intChars
      rw [if_neg (by omega)]
    refine ⟨100 * m.natAbs, ?_, ?_, ?_⟩
    · rw [hfmt, parseTonsChars_digits (natChars_ne_nil _) (natChars_digits _),
        digitsToNat_natChars]
      congr 1
      push_cast
      ring
    · rw [hfmt,
        show ((100 * m.natAbs : ℕ) : ℚ) / 100 = ((m.natAbs : ℕ) : ℚ) by push_cast; ring]
      exact formatPriceChars_natCast m.natAbs
    · intro h2
      rw [absQ_lt] at hint
      unfold EPS at hint
      have h1 : (1 : ℚ) < (m : ℚ) := by linarith [hint.2]
      have hm2 : 2 ≤ m := by
        by_contra hcon
        push_neg at hcon
        have : (m : ℚ) ≤ 1 := by exact_mod_cast Int.lt_add_one_iff.mp hcon
        linarith
      rw [show ((100 * m.natAbs : ℕ) : ℚ) / 100 = ((m.natAbs : ℕ) : ℚ) by push_cast; ring]
      have h3 : (2 : ℤ) ≤ (m.natAbs : ℤ) := by omega
      exact_mod_cast h3
  · set r := roundE (100 * q) with hr
    have hr0 : 0 ≤ r := roundE_nonneg (by linarith)
    set a := r.natAbs with hadef
    have hfmt : formatPriceChars q =
        stripTail (natChars (a / 100) ++ '.' :: pad2 (a % 100)) := by
      unfold formatPriceChars
      rw [if_neg hint]
      simp only [twoDecChars]
      rw [← hr, if_neg (by omega)]
    have hformat2 : formatPriceChars ((a : ℚ) / 100) = formatPriceChars q := by
      rw [formatPriceChars_div100, hfmt]
    have hccbound : a % 100 < 100 := Nat.mod_lt _ (by norm_num)
    have htbound : (a % 100) / 10 < 10 := by omega
    have hubound : (a % 100) % 10 < 10 := by omega
    have haval : a = 100 * (a / 100) + ((a % 100) / 10) * 10 + (a % 100) % 10 := by omega
    have hmain : parseTonsChars (formatPriceChars q) = some ((a : ℚ) / 100) := by
      rw [hfmt]
      by_cases hu : (a % 100) % 10 = 0
      · by_cases ht : (a % 100) / 10 = 0
        · have hcc0 : a % 100 = 0 := by omega
          rw [hcc0, show pad2 0 = ['0', '0'] from rfl,
            stripTail_shape_int (natChars_digits _),
            parseTonsChars_digits (natChars_ne_nil _) (natChars_digits _),
            digitsToNat_natChars]
          congr 1
          have key : (a : ℚ) = 100 * ((a / 100 : ℕ) : ℚ) := by
            have h100 : a = 100 * (a / 100) := by omega
            calc (a : ℚ) = ((100 * (a / 100) : ℕ) : ℚ) := by exact_mod_cast h100
              _ = 100 * ((a / 100 : ℕ) : ℚ) := by push_cast; ring
          rw [key]
          ring
        · have hpad : pad2 (a % 100) = [digitChar ((a % 100) / 10), '0'] := by
            unfold pad2
            rw [hu]
            rfl
          rw [hpad,
            stripTail_shape_one _ (isDigitCh_digitChar _ htbound)
              (fun he => ht ((digitChar_eq_zero_iff _ htbound).mp he)),
            show (natChars (a / 100) ++ ['.', digitChar ((a % 100) / 10)]) =
              natChars (a / 100) ++ '.' :: [digitChar ((a % 100) / 10)] from rfl,
            parseTonsChars_with_frac '.' (natChars_ne_nil _) (natChars_digits _)
              (Or.inl rfl) (by decide) (by simp)
              (by
                intro x hx
                rw [List.mem_singleton] at hx
                rw [hx]
                exact isDigitCh_digitChar _ htbound),
            digitsToNat_natChars, digitsToNat_single, digitVal_digitChar _ htbound,
            List.length_singleton]
          congr 1
          have key : (a : ℚ) =
              100 * ((a / 100 : ℕ) : ℚ) + 10 * (((a % 100) / 10 : ℕ) : ℚ) := by
            have hid : a = 100 * (a / 100) + 10 * ((a % 100) / 10) := by omega
            calc (a : ℚ)
                = ((100 * (a / 100) + 10 * ((a % 100) / 10) : ℕ) : ℚ) := by
                  exact_mod_cast hid
              _ = _ := by push_cast; ring
          rw [key]
          ring
      · rw [show pad2 (a % 100) =
            [digitChar ((a % 100) / 10), digitChar ((a % 100) % 10)] from rfl,
          stripTail_shape_keep _ _ (isDigitCh_digitChar _ hubound)
            (fun he => hu ((digitChar_eq_zero_iff _ hubound).mp he)),
          parseTonsChars_with_frac '.' (natChars_ne_nil _) (natChars_digits _)
            (Or.inl rfl) (by decide) (by simp)
            (by
              intro x hx
              simp only [List.mem_cons, List.mem_singleton] at hx
              rcases hx with hx | hx | hx
              · rw [hx]
                exact isDigitCh_digitChar _ htbound
              · rw [hx]
                exact isDigitCh_digitChar _ hubound
              · cases hx),
          digitsToNat_natChars, digitsToNat_pair,
          digitVal_digitChar _ htbound, digitVal_digitChar _ hubound,
          show ([digitChar ((a % 100) / 10), digitChar ((a % 100) % 10)]).length = 2
            from rfl]
        congr 1
        have key : (a : ℚ) = 100 * ((a / 100 : ℕ) : ℚ) +
            (10 * (((a % 100) / 10 : ℕ) : ℚ) + (((a % 100) % 10 : ℕ) : ℚ)) := by
          have hid : a = 100 * (a / 100) + (10 * ((a % 100) / 10) + (a % 100) % 10) := by
            omega
          calc (a : ℚ)
              = ((100 * (a / 100) + (10 * ((a % 100) / 10) + (a % 100) % 10) : ℕ) : ℚ) := by
                exact_mod_cast hid
            _ = _ := by push_cast; ring
        rw [key]
        push_cast
        ring
    refine ⟨a, hmain, hformat2, ?_⟩
    intro h2
    have hfl : (200 : ℤ) ≤ ⌊100 * q⌋ := by
      rw [Int.le_floor]
      push_cast
      linarith
    have ha200 : 200 ≤ a := by
      have := floor_le_roundE (100 * q)
      omega
    rw [le_div_iff₀ (by norm_num)]
    have h200 : (200 : ℚ) ≤ (a : ℚ) := by exact_mod_cast ha200
    linarith

theorem formatPriceChars_digit_or_dot {q : ℚ} (hq : 0 ≤ q) :
    ∀ c ∈ formatPriceChars q, isDigitCh c = true ∨ c = '.' := by
  intro c hc
  unfold formatPriceChars at hc
  split_ifs at hc with h
  · unfold intChars at hc
    rw [if_neg (by have := roundE_nonneg hq; omega)] at hc
    exact Or.inl (natChars_digits _ c hc)
  · have hc2 := mem_stripTail hc
    simp only [twoDecChars] at hc2
    rw [if_neg (by have := roundE_nonneg (by linarith : (0 : ℚ) ≤ 100 * q); omega)] at hc2
    simp only [List.mem_append, List.mem_cons] at hc2
    rcases hc2 with h1 | h1 | h1
    · exact Or.inl (natChars_digits _ c h1)
    · exact Or.inr h1
    · unfold pad2 at h1
      simp only [List.mem_cons, List.mem_singleton] at h1
      rcases h1 with h1 | h1 | h1
      · exact Or.inl (by rw [h1]; exact isDigitCh_digitChar _ (by omega))
      · exact Or.inl (by rw [h1]; exact isDigitCh_digitChar _ (by omega))
      · cases h1

theorem trimChars_formatPriceChars {q : ℚ} (hq : 0 ≤ q) :
    trimChars (formatPriceChars q) = formatPriceChars q :=
  trimChars_eq_self (fun c hc => by
    rcases formatPriceChars_digit_or_dot hq c hc with h | h
    · exact digit_not_space h
    · rw [h]
      exact dot_not_space)

theorem parse_quantity_to_tons_format {q : ℚ} (hq : 0 ≤ q) :
    parse_quantity_to_tons (String.mk (formatPriceChars q)) =
      parseTonsChars (formatPriceChars q) := by
  unfold parse_quantity_to_tons
  rw [show (String.mk (formatPriceChars q)).toList = formatPriceChars q from rfl]
  rw [trimChars_formatPriceChars hq]

theorem parseTonsChars_nonneg {l : List Char} {q : ℚ}
    (h : parseTonsChars l = some q) : 0 ≤ q := by
  unfold parseTonsChars at h
  rcases hdw : l.dropWhile isDigitCh with _ | ⟨sep, frac⟩ <;> rw [hdw] at h
  · have h2 : (if (l.takeWhile isDigitCh).isEmpty = true then none
        else some ((digitsToNat (l.takeWhile isDigitCh) : ℕ) : ℚ)) = some q := h
    by_cases he : (l.takeWhile isDigitCh).isEmpty = true
    · rw [if_pos he] at h2
      cases h2
    · rw [if_neg he] at h2
      have hv := Option.some.inj h2
      rw [← hv]
      positivity
  · have h2 : (if (l.takeWhile isDigitCh).isEmpty = true then none
        else if (sep = '.' ∨ sep = ',') ∧ ¬frac.isEmpty = true ∧ frac.all isDigitCh = true then
          some (((digitsToNat (l.takeWhile isDigitCh) : ℕ) : ℚ)
            + ((digitsToNat frac : ℕ) : ℚ) / 10 ^ frac.length)
        else none) = some q := h
    by_cases he : (l.takeWhile isDigitCh).isEmpty = true
    · rw [if_pos he] at h2
      cases h2
    · rw [if_neg he] at h2
      by_cases hcnd : (sep = '.' ∨ sep = ',') ∧ ¬frac.isEmpty = true ∧ frac.all isDigitCh = true
      · rw [if_pos hcnd] at h2
        have hv := Option.some.inj h2
        rw [← hv]
        positivity
      · rw [if_neg hcnd] at h2
        cases h2

/-- C8 (counterexample): the quantity step's normalization is not idempotent on
whole strings: "2,3" is accepted and normalized to "2.3 tonna", but feeding the
already-normalized string "2.3 tonna" back into the quantity step is rejected
(`parse_quantity_to_tons` full-matches digits only, so the " tonna" suffix
fails), rather than yielding the same string. -/
theorem normalized_quantity_string_fails_reparse :
    order_quantity "2,3" = QuantityReply.accepted "2.3 tonna" ∧
    order_quantity "2.3 tonna" = QuantityReply.invalidQuantity := by
  constructor
  · have hq : parse_quantity_to_tons "2,3" = some (23 / 10) := by
      rw [show parse_quantity_to_tons "2,3" =
        some (((2 : ℕ) : ℚ) + ((3 : ℕ) : ℚ) / 10 ^ (1 : ℕ)) from rfl]
      norm_num
    unfold order_quantity
    rw [if_neg (by decide)]
    simp only [hq]
    rw [if_neg (by norm_num)]
    simp only [format_price]
    rw [formatPriceChars_23_10]
    rfl
  · decide

/-- C8 (amended): normalization is idempotent on the numeric part: whenever the
quantity step accepts an input and produces the normalized string `n`, `n` is
the rendered number followed by " tonna", and running the quantity step on that
numeric part alone reproduces exactly the same normalized string `n`.  (The
full string `n` itself is rejected by the step, as the counterexample shows.) -/
theorem quantity_normalization_idempotent_numeric
    (s n : String) (h : order_quantity s = QuantityReply.accepted n) :
    ∃ m : String, n = m ++ " tonna" ∧ order_quantity m = QuantityReply.accepted n := by
  unfold order_quantity at h
  by_cases hc : is_cancel_message s = true
  · rw [if_pos hc] at h
    cases h
  rw [if_neg hc] at h
  rcases hp : parse_quantity_to_tons s with _ | q
  · simp only [hp] at h
    cases h
  · simp only [hp] at h
    by_cases h2 : q < 2
    · rw [if_pos h2] at h
      cases h
    rw [if_neg h2] at h
    have hn : n = format_price (some q) ++ " tonna" := (QuantityReply.accepted.inj h).symm
    have hp2 : parseTonsChars (trimChars s.toList) = some q := hp
    have hq0 : 0 ≤ q := parseTonsChars_nonneg hp2
    obtain ⟨a, hparse, hfmt, hge2⟩ := formatPriceChars_roundtrip q hq0
    have hge2q : 2 ≤ (a : ℚ) / 100 := hge2 (not_lt.mp h2)
    have hparse_m : parse_quantity_to_tons (format_price (some q)) = some ((a : ℚ) / 100) := by
      show parse_quantity_to_tons (String.mk (formatPriceChars q)) = _
      rw [parse_quantity_to_tons_format hq0, hparse]
    have hcancel : ¬ is_cancel_message (format_price (some q)) = true := by
      intro htrue
      have heq : String.mk (trimChars ((format_price (some q)).toList)) = BTN_CANCEL :=
        of_decide_eq_true htrue
      have hdata : trimChars ((format_price (some q)).toList) = BTN_CANCEL.data :=
        congrArg String.data heq
      have hfq : formatPriceChars q = BTN_CANCEL.data := by
        have h1 : trimChars (formatPriceChars q) = BTN_CANCEL.data := hdata
        rw [trimChars_formatPriceChars hq0] at h1
        exact h1
      have hx : parseTonsChars BTN_CANCEL.data = some ((a : ℚ) / 100) := by
        rw [← hfq]
        exact hparse
      have hy : parseTonsChars BTN_CANCEL.data = (none : Option ℚ) := by decide
      rw [hy] at hx
      cases hx
    refine ⟨format_price (some q), hn, ?_⟩
    unfold order_quantity
    rw [if_neg hcancel]
    simp only [hparse_m]
    rw [if_neg (by linarith)]
    have hre : format_price (some ((a : ℚ) / 100)) = format_price (some q) := by
      simp only [format_price]
      rw [hfmt]
    rw [hre, hn]

theorem quantity_normalization_idempotent_numeric_witness :
    order_quantity "2,3" = QuantityReply.accepted "2.3 tonna" ∧
    ∃ m : String, "2.3 tonna" = m ++ " tonna" ∧
      order_quantity m = QuantityReply.accepted "2.3 tonna" := by
  have haccept : order_quantity "2,3" = QuantityReply.accepted "2.3 tonna" := by
    have hq : parse_quantity_to_tons "2,3" = some (23 / 10) := by
      rw [show parse_quantity_to_tons "2,3" =
        some (((2 : ℕ) : ℚ) + ((3 : ℕ) : ℚ) / 10 ^ (1 : ℕ)) from rfl]
      norm_num
    unfold order_quantity
    rw [if_neg (by decide)]
    simp only [hq]
    rw [if_neg (by norm_num)]
    simp only [format_price]
    rw [formatPriceChars_23_10]
    rfl
  exact ⟨haccept, quantity_normalization_idempotent_numeric "2,3" "2.3 tonna" haccept⟩
